import Mathlib

/-!
# Night city demo (src/nightcity.cpp): scene generation, animation, camera input

A shallow embedding of the scene logic of the night city program.

* The C++ `float` scalars are embedded as elements of a linearly ordered field `R`
  with exact arithmetic, so the definitions can be evaluated over the rationals
  and the trigonometric statements can be read over the reals.  This describes
  the expressions the code computes; infinities and NaN are outside the model.
* Where the rounding of `float` decides a property (additivity of
  `Vehicle::update`, vehicles on their circles), `Vehicle.updateFloat` and
  `makeVehicleFloat` embed the same code over the rationals with every
  operation rounded to binary32 by `fl32` (round to nearest, ties to even).
* The functions the program takes from `<cmath>` and GLM (`cos`, `sin`, `M_PI`,
  `glm::radians`, `glm::normalize`) are not part of the repository; they are the
  fields of `MathFns` and `GlmFns`, parameters of every definition that calls them.
* The random engine (`std::mt19937` with `std::uniform_real_distribution<float>`)
  is the parameter `RandomEngine`: a draw takes the bounds and the engine state
  and returns the drawn value with the next engine state.
* The render pass is embedded as the ordered log of the OpenGL calls it issues;
  the matrix functions of GLM are the parameter `GlmMat`.
-/

set_option autoImplicit false

namespace NightCity

/-! ## Data model -/

/-- Three component vector, the embedding of glm::vec3. -/
structure Vec3 (R : Type) where
  x : R
  y : R
  z : R
deriving DecidableEq, Repr

namespace Vec3

variable {R : Type} [LinearOrderedField R]

/-- Component-wise sum, glm operator+. -/
def add (a b : Vec3 R) : Vec3 R := ⟨a.x + b.x, a.y + b.y, a.z + b.z⟩

/-- Component-wise difference, glm operator-. -/
def sub (a b : Vec3 R) : Vec3 R := ⟨a.x - b.x, a.y - b.y, a.z - b.z⟩

/-- Product with a scalar, glm operator* between a float and a vec3. -/
def smul (k : R) (a : Vec3 R) : Vec3 R := ⟨k * a.x, k * a.y, k * a.z⟩

/-- Product with a scalar on the right, glm operator* between a vec3 and a float. -/
def muls (a : Vec3 R) (k : R) : Vec3 R := ⟨a.x * k, a.y * k, a.z * k⟩

/-- Component-wise product, the action of glm::scale on a point. -/
def mul (a b : Vec3 R) : Vec3 R := ⟨a.x * b.x, a.y * b.y, a.z * b.z⟩

/-- Cross product, glm::cross. -/
def cross (a b : Vec3 R) : Vec3 R :=
  ⟨a.y * b.z - b.y * a.z, a.z * b.x - b.z * a.x, a.x * b.y - b.x * a.y⟩

end Vec3

/-- Library functions of cmath used by the scene and defined outside the
repository: cos, sin and the constant M_PI. -/
structure MathFns (R : Type) where
  cos : R → R
  sin : R → R
  M_PI : R

/-- Library functions of GLM used by the camera code and defined outside the
repository: glm::radians and glm::normalize. -/
structure GlmFns (R : Type) where
  radians : R → R
  normalize : Vec3 R → Vec3 R

/-- The random engine of the scene: seeding of std::mt19937 from an unsigned
value, and one draw of std::uniform_real_distribution (lower bound, upper bound,
engine state) giving the drawn value and the next engine state. -/
structure RandomEngine (G R : Type) where
  seed : Nat → G
  uniform : R → R → G → R × G

/-- Record Building of the source (lines 136-145). -/
structure Building (R : Type) where
  position : Vec3 R
  scale : Vec3 R
  color : Vec3 R
  emissionStrength : R
  emissionColor : Vec3 R
deriving DecidableEq, Repr

/-- Record Vehicle of the source (lines 147-163). -/
structure Vehicle (R : Type) where
  position : Vec3 R
  direction : Vec3 R
  speed : R
  color : Vec3 R
  pathRadius : R
  pathAngle : R
deriving DecidableEq, Repr

/-- Record Billboard of the source (lines 165-177). -/
structure Billboard (R : Type) where
  position : Vec3 R
  rotation : R
  rotationSpeed : R
  color : Vec3 R
deriving DecidableEq, Repr

/-- The scene object: the three entity vectors and the random engine state of
class FuturisticCity, together with the file-scope variable animationTime, the
only global that FuturisticCity::update writes. -/
structure FuturisticCity (G R : Type) where
  buildings : List (Building R)
  vehicles : List (Vehicle R)
  billboards : List (Billboard R)
  gen : G
  animationTime : R

section Scene

variable {G R : Type} [LinearOrderedField R]

/-! ## Entities -/

/-- Constructor of Vehicle: the orbit angle starts at zero. -/
def Vehicle.new (pos dir : Vec3 R) (sp : R) (col : Vec3 R) (radius : R) : Vehicle R :=
  { position := pos, direction := dir, speed := sp, color := col,
    pathRadius := radius, pathAngle := 0 }

/-- Vehicle::update (lines 158-162): advance the orbit angle, then recompute the
x and z components of the position from it; the y component is not written.
Arithmetic is exact here; Vehicle.updateFloat is the same code with the
rounding of float. -/
def Vehicle.update (m : MathFns R) (v : Vehicle R) (deltaTime : R) : Vehicle R :=
  let pathAngle := v.pathAngle + v.speed * deltaTime
  { v with
    pathAngle := pathAngle
    position :=
      { x := v.pathRadius * m.cos pathAngle
        y := v.position.y
        z := v.pathRadius * m.sin pathAngle } }

/-- Constructor of Billboard: the rotation starts at zero. -/
def Billboard.new (pos : Vec3 R) (rotSpeed : R) (col : Vec3 R) : Billboard R :=
  { position := pos, rotation := 0, rotationSpeed := rotSpeed, color := col }

/-- Billboard::update (lines 174-176). -/
def Billboard.update (b : Billboard R) (deltaTime : R) : Billboard R :=
  { b with rotation := b.rotation + b.rotationSpeed * deltaTime }

/-! ## Scene generation -/

/-- The five values drawn by one iteration of the building loop, with the engine
state left behind. -/
structure BuildingDraws (G R : Type) where
  x : R
  z : R
  height : R
  width : R
  colorChoice : R
  next : G

/-- The draws of one iteration of the building loop (lines 271-274 and 281), in
source order: x, z, height, width, colour choice. -/
def drawBuilding (eng : RandomEngine G R) (g : G) : BuildingDraws G R :=
  let dx := eng.uniform (-50) 50 g
  let dz := eng.uniform (-50) 50 dx.2
  let dh := eng.uniform 5 40 dz.2
  let dw := eng.uniform 2 8 dh.2
  let dc := eng.uniform 0.1 0.9 dw.2
  { x := dx.1, z := dz.1, height := dh.1, width := dw.1, colorChoice := dc.1, next := dc.2 }

/-- The building pushed by one iteration of the building loop, as a function of
the drawn values (lines 276-291). -/
def makeBuilding (x z height width colorChoice : R) : Building R :=
  let pos : Vec3 R := ⟨x, height / 2, z⟩
  let scale : Vec3 R := ⟨width, height, width⟩
  let color : Vec3 R :=
    if colorChoice < 0.3 then ⟨0.2, 0.2, 0.8⟩
    else if colorChoice < 0.6 then ⟨0.8, 0.2, 0.8⟩
    else ⟨0.2, 0.8, 0.8⟩
  let emission : R := if height > 20 then 0.3 else 0.1
  Building.mk pos scale color emission (Vec3.muls color 0.5)

/-- Body of the building loop of generateCity (lines 271-291): five draws from
the engine, then one push_back. -/
def buildingStep (eng : RandomEngine G R) (c : FuturisticCity G R) (_i : Nat) :
    FuturisticCity G R :=
  let d := drawBuilding eng c.gen
  { c with
    buildings := c.buildings ++ [makeBuilding d.x d.z d.height d.width d.colorChoice]
    gen := d.next }

/-- The vehicle pushed by iteration i of the vehicle loop (lines 296-305).  It
is constructed at (radius, height, 0) with angle zero; its pathAngle is then
overwritten and the position is left as constructed. -/
def makeVehicle (m : MathFns R) (i : Nat) : Vehicle R :=
  let height : R := 15 + (i : R) * 3
  let radius : R := 20 + (i : R) * 5
  let speed : R := 0.5 + ((i % 3 : Nat) : R) * 0.3
  let pos : Vec3 R := ⟨radius, height, 0⟩
  let dir : Vec3 R := ⟨0, 0, 1⟩
  let color : Vec3 R := ⟨1, 0.8, 0.2⟩
  let vehicle := Vehicle.new pos dir speed color radius
  { vehicle with pathAngle := (i : R) * (2 * m.M_PI / 8) }

/-- Body of the vehicle loop of generateCity (lines 296-306). -/
def vehicleStep (m : MathFns R) (c : FuturisticCity G R) (i : Nat) : FuturisticCity G R :=
  { c with vehicles := c.vehicles ++ [makeVehicle m i] }

/-- Body of the billboard loop of generateCity (lines 311-319). -/
def billboardStep (eng : RandomEngine G R) (c : FuturisticCity G R) (i : Nat) :
    FuturisticCity G R :=
  let dx := eng.uniform (-50) 50 c.gen
  let dz := eng.uniform (-50) 50 dx.2
  let x := dx.1
  let z := dz.1
  let y : R := 20 + (i : R) * 2
  let pos : Vec3 R := ⟨x, y, z⟩
  let rotSpeed : R := 30 + ((i % 3 : Nat) : R) * 20
  let color : Vec3 R := ⟨0, 1, 0.5⟩
  { c with
    billboards := c.billboards ++ [Billboard.new pos rotSpeed color]
    gen := dz.2 }

/-- FuturisticCity::generateCity (lines 263-321): the three counted loops, run
one after the other on the scene; every iteration appends one entity. -/
def generateCity (m : MathFns R) (eng : RandomEngine G R) (c : FuturisticCity G R) :
    FuturisticCity G R :=
  let c1 := (List.range 50).foldl (buildingStep eng) c
  let c2 := (List.range 8).foldl (vehicleStep m) c1
  (List.range 15).foldl (billboardStep eng) c2

/-- Constructor of FuturisticCity (lines 236-240): the engine is seeded with the
value read from std::random_device, the vectors start empty, and generateCity
runs once.  The value of animationTime at that moment is its initialiser 0. -/
def FuturisticCity.new (m : MathFns R) (eng : RandomEngine G R) (rd : Nat) :
    FuturisticCity G R :=
  generateCity m eng
    { buildings := [], vehicles := [], billboards := [], gen := eng.seed rd,
      animationTime := 0 }

/-! ## Animation update -/

/-- FuturisticCity::update (lines 323-335). -/
def FuturisticCity.update (m : MathFns R) (c : FuturisticCity G R) (deltaTime : R) :
    FuturisticCity G R :=
  { c with
    animationTime := c.animationTime + deltaTime
    vehicles := c.vehicles.map (fun vehicle => vehicle.update m deltaTime)
    billboards := c.billboards.map (fun billboard => billboard.update deltaTime) }

/-! ## Building transform of the render pass -/

/-- The position attribute (first three columns) of the 36 rows of the table
cubeVertices (lines 180-223), in source order. -/
def cubePositions : List (Vec3 R) :=
  [ ⟨-0.5, -0.5, -0.5⟩, ⟨0.5, -0.5, -0.5⟩, ⟨0.5, 0.5, -0.5⟩,
    ⟨0.5, 0.5, -0.5⟩, ⟨-0.5, 0.5, -0.5⟩, ⟨-0.5, -0.5, -0.5⟩,
    ⟨-0.5, -0.5, 0.5⟩, ⟨0.5, -0.5, 0.5⟩, ⟨0.5, 0.5, 0.5⟩,
    ⟨0.5, 0.5, 0.5⟩, ⟨-0.5, 0.5, 0.5⟩, ⟨-0.5, -0.5, 0.5⟩,
    ⟨-0.5, 0.5, 0.5⟩, ⟨-0.5, 0.5, -0.5⟩, ⟨-0.5, -0.5, -0.5⟩,
    ⟨-0.5, -0.5, -0.5⟩, ⟨-0.5, -0.5, 0.5⟩, ⟨-0.5, 0.5, 0.5⟩,
    ⟨0.5, 0.5, 0.5⟩, ⟨0.5, 0.5, -0.5⟩, ⟨0.5, -0.5, -0.5⟩,
    ⟨0.5, -0.5, -0.5⟩, ⟨0.5, -0.5, 0.5⟩, ⟨0.5, 0.5, 0.5⟩,
    ⟨-0.5, -0.5, -0.5⟩, ⟨0.5, -0.5, -0.5⟩, ⟨0.5, -0.5, 0.5⟩,
    ⟨0.5, -0.5, 0.5⟩, ⟨-0.5, -0.5, 0.5⟩, ⟨-0.5, -0.5, -0.5⟩,
    ⟨-0.5, 0.5, -0.5⟩, ⟨0.5, 0.5, -0.5⟩, ⟨0.5, 0.5, 0.5⟩,
    ⟨0.5, 0.5, 0.5⟩, ⟨-0.5, 0.5, 0.5⟩, ⟨-0.5, 0.5, -0.5⟩ ]

/-- The model matrix composed for a building in FuturisticCity::render (lines
350-352), as its action on a point of the mesh: glm::translate by the position
after glm::scale by the scale, which the vertex shader applies to aPos. -/
def buildingModel (b : Building R) (aPos : Vec3 R) : Vec3 R :=
  Vec3.add b.position (Vec3.mul b.scale aPos)

end Scene

/-! ## Camera and input -/

/-- Key code GLFW_KEY_W of the GLFW header. -/
def GLFW_KEY_W : Int := 87
/-- Key code GLFW_KEY_S of the GLFW header. -/
def GLFW_KEY_S : Int := 83
/-- Key code GLFW_KEY_A of the GLFW header. -/
def GLFW_KEY_A : Int := 65
/-- Key code GLFW_KEY_D of the GLFW header. -/
def GLFW_KEY_D : Int := 68
/-- Key code GLFW_KEY_SPACE of the GLFW header. -/
def GLFW_KEY_SPACE : Int := 32
/-- Key code GLFW_KEY_LEFT_SHIFT of the GLFW header. -/
def GLFW_KEY_LEFT_SHIFT : Int := 340
/-- Key code GLFW_KEY_LEFT_CONTROL of the GLFW header. -/
def GLFW_KEY_LEFT_CONTROL : Int := 341
/-- Key code GLFW_KEY_ESCAPE of the GLFW header. -/
def GLFW_KEY_ESCAPE : Int := 256
/-- Action code GLFW_RELEASE of the GLFW header. -/
def GLFW_RELEASE : Int := 0
/-- Action code GLFW_PRESS of the GLFW header. -/
def GLFW_PRESS : Int := 1

/-- The file-scope variables read or written by key_callback, processInput and
mouse_callback (lines 15-35): camera vectors, yaw, pitch, cameraSpeed, deltaTime,
the key table (read at an int index; only the indices 0 to 1023 are written) and
the last cursor position; with them the close flag of the GLFW window, which
key_callback sets. -/
structure Globals (R : Type) where
  cameraPos : Vec3 R
  cameraFront : Vec3 R
  cameraUp : Vec3 R
  yaw : R
  pitch : R
  cameraSpeed : R
  deltaTime : R
  keys : Int → Bool
  lastX : R
  lastY : R
  firstMouse : Bool
  windowShouldClose : Bool

section Camera

variable {R : Type} [LinearOrderedField R]

/-- The initialisers of the file-scope variables (lines 12-35); the key table is
zero-initialised. -/
def Globals.init : Globals R :=
  { cameraPos := ⟨0, 20, 50⟩
    cameraFront := ⟨0, 0, -1⟩
    cameraUp := ⟨0, 1, 0⟩
    yaw := -90
    pitch := 0
    cameraSpeed := 10
    deltaTime := 0
    keys := fun _ => false
    lastX := 1200 / 2
    lastY := 800 / 2
    firstMouse := true
    windowShouldClose := false }

/-- Function key_callback (lines 473-483): escape pressed sets the close flag; a
key code in [0, 1024) has its table entry set on press and cleared on release. -/
def key_callback (s : Globals R) (key action : Int) : Globals R :=
  let s1 :=
    if key = GLFW_KEY_ESCAPE ∧ action = GLFW_PRESS then { s with windowShouldClose := true }
    else s
  if 0 ≤ key ∧ key < 1024 then
    if action = GLFW_PRESS then
      { s1 with keys := fun k => if k = key then true else s1.keys k }
    else if action = GLFW_RELEASE then
      { s1 with keys := fun k => if k = key then false else s1.keys k }
    else s1
  else s1

/-- Function processInput (lines 485-506).  The velocity is computed from the
value cameraSpeed has on entry; the six key tests follow in source order; the
speed control at the end writes cameraSpeed from the left-control key. -/
def processInput (gl : GlmFns R) (s : Globals R) : Globals R :=
  let velocity := s.cameraSpeed * s.deltaTime
  let p0 := s.cameraPos
  let p1 := if s.keys GLFW_KEY_W then Vec3.add p0 (Vec3.smul velocity s.cameraFront) else p0
  let p2 := if s.keys GLFW_KEY_S then Vec3.sub p1 (Vec3.smul velocity s.cameraFront) else p1
  let p3 :=
    if s.keys GLFW_KEY_A then
      Vec3.sub p2 (Vec3.muls (gl.normalize (Vec3.cross s.cameraFront s.cameraUp)) velocity)
    else p2
  let p4 :=
    if s.keys GLFW_KEY_D then
      Vec3.add p3 (Vec3.muls (gl.normalize (Vec3.cross s.cameraFront s.cameraUp)) velocity)
    else p3
  let p5 := if s.keys GLFW_KEY_SPACE then Vec3.add p4 (Vec3.smul velocity s.cameraUp) else p4
  let p6 :=
    if s.keys GLFW_KEY_LEFT_SHIFT then Vec3.sub p5 (Vec3.smul velocity s.cameraUp) else p5
  { s with
    cameraPos := p6
    cameraSpeed := if s.keys GLFW_KEY_LEFT_CONTROL then 25 else 10 }

/-- Function mouse_callback (lines 508-536). -/
def mouse_callback (m : MathFns R) (gl : GlmFns R) (s : Globals R) (xpos ypos : R) :
    Globals R :=
  let lastX0 := if s.firstMouse then xpos else s.lastX
  let lastY0 := if s.firstMouse then ypos else s.lastY
  let xoffset := (xpos - lastX0) * 0.1
  let yoffset := (lastY0 - ypos) * 0.1
  let yaw := s.yaw + xoffset
  let pitch0 := s.pitch + yoffset
  let pitch1 := if pitch0 > 89 then 89 else pitch0
  let pitch := if pitch1 < -89 then -89 else pitch1
  let direction : Vec3 R :=
    { x := m.cos (gl.radians yaw) * m.cos (gl.radians pitch)
      y := m.sin (gl.radians pitch)
      z := m.sin (gl.radians yaw) * m.cos (gl.radians pitch) }
  { s with
    firstMouse := false
    lastX := xpos
    lastY := ypos
    yaw := yaw
    pitch := pitch
    cameraFront := gl.normalize direction }

end Camera

/-! ## Render pass -/

/-- The 4x4 matrix functions of GLM used by the render pass and defined outside
the repository, over a matrix type M: glm::mat4(1.0f), glm::translate,
glm::rotate (matrix, angle, axis) and glm::scale. -/
structure GlmMat (M R : Type) where
  identity : M
  translate : M → Vec3 R → M
  rotate : M → R → Vec3 R → M
  scale : M → Vec3 R → M

/-- The uniforms of the shader program that render looks up by name. -/
inductive Uniform where
  | view
  | projection
  | viewPos
  | lightPos
  | lightColor
  | model
  | objectColor
  | emissionStrength
  | emissionColor
deriving DecidableEq, Repr

/-- Mode code GL_TRIANGLES of the OpenGL header. -/
def GL_TRIANGLES : Nat := 4

/-- The OpenGL calls issued by FuturisticCity::render, with their arguments. -/
inductive GLCall (M R : Type) where
  | useProgram (program : Nat)
  | bindVertexArray (array : Nat)
  | uniformMatrix4fv (location : Uniform) (value : M)
  | uniform3fv (location : Uniform) (value : Vec3 R)
  | uniform3f (location : Uniform) (v0 v1 v2 : R)
  | uniform1f (location : Uniform) (v0 : R)
  | drawArrays (mode : Nat) (first : Int) (count : Nat)

section Render

variable {G M R : Type} [LinearOrderedField R]

/-- Body of the building loop of render (lines 350-359): the model matrix, the
three material uniforms, then the draw of the cube. -/
def renderBuilding (mat : GlmMat M R) (log : List (GLCall M R)) (building : Building R) :
    List (GLCall M R) :=
  let model := mat.identity
  let model := mat.translate model building.position
  let model := mat.scale model building.scale
  log ++
    [ GLCall.uniformMatrix4fv Uniform.model model,
      GLCall.uniform3fv Uniform.objectColor building.color,
      GLCall.uniform1f Uniform.emissionStrength building.emissionStrength,
      GLCall.uniform3fv Uniform.emissionColor building.emissionColor,
      GLCall.drawArrays GL_TRIANGLES 0 36 ]

/-- Body of the vehicle loop of render (lines 364-373). -/
def renderVehicle (mat : GlmMat M R) (log : List (GLCall M R)) (vehicle : Vehicle R) :
    List (GLCall M R) :=
  let model := mat.identity
  let model := mat.translate model vehicle.position
  let model := mat.scale model ⟨1.5, 0.5, 3.0⟩
  log ++
    [ GLCall.uniformMatrix4fv Uniform.model model,
      GLCall.uniform3fv Uniform.objectColor vehicle.color,
      GLCall.uniform1f Uniform.emissionStrength 0.8,
      GLCall.uniform3fv Uniform.emissionColor vehicle.color,
      GLCall.drawArrays GL_TRIANGLES 0 36 ]

/-- Body of the billboard loop of render (lines 378-388). -/
def renderBillboard (mat : GlmMat M R) (gl : GlmFns R) (log : List (GLCall M R))
    (billboard : Billboard R) : List (GLCall M R) :=
  let model := mat.identity
  let model := mat.translate model billboard.position
  let model := mat.rotate model (gl.radians billboard.rotation) ⟨0, 1, 0⟩
  let model := mat.scale model ⟨3.0, 2.0, 0.1⟩
  log ++
    [ GLCall.uniformMatrix4fv Uniform.model model,
      GLCall.uniform3fv Uniform.objectColor billboard.color,
      GLCall.uniform1f Uniform.emissionStrength 0.9,
      GLCall.uniform3fv Uniform.emissionColor billboard.color,
      GLCall.drawArrays GL_TRIANGLES 0 36 ]

/-- FuturisticCity::render (lines 337-390).  The scene is passed through with
the OpenGL calls issued, in order; shaderProgram and VAO are the handles the
scene object holds, cameraPos is read from the globals.  The three loops run
over the stored vectors in order and only read the entities. -/
def FuturisticCity.render (mat : GlmMat M R) (gl : GlmFns R) (shaderProgram VAO : Nat)
    (s : Globals R) (c : FuturisticCity G R) (view projection : M) :
    FuturisticCity G R × List (GLCall M R) :=
  let log0 : List (GLCall M R) :=
    [ GLCall.useProgram shaderProgram,
      GLCall.bindVertexArray VAO,
      GLCall.uniformMatrix4fv Uniform.view view,
      GLCall.uniformMatrix4fv Uniform.projection projection,
      GLCall.uniform3fv Uniform.viewPos s.cameraPos,
      GLCall.uniform3f Uniform.lightPos 0 50 0,
      GLCall.uniform3f Uniform.lightColor 0.3 0.3 0.7 ]
  let log1 := c.buildings.foldl (renderBuilding mat) log0
  let log2 := c.vehicles.foldl (renderVehicle mat) log1
  let log3 := c.billboards.foldl (renderBillboard mat gl) log2
  (c, log3)

/-! ## Reading a log of OpenGL calls -/

/-- The per-object uniforms in force at some point of a log; none before the
first upload. -/
structure ObjectUniforms (M R : Type) where
  model : Option M
  objectColor : Option (Vec3 R)
  emissionStrength : Option R
  emissionColor : Option (Vec3 R)

/-- One draw call as the shader sees it: the arguments of glDrawArrays with the
per-object uniforms in force when it is issued. -/
structure DrawCall (M R : Type) where
  uniforms : ObjectUniforms M R
  mode : Nat
  first : Int
  count : Nat

/-- Effect of one call on the per-object uniforms: an upload replaces the value
of its uniform, every other call leaves them as they are. -/
def ObjectUniforms.apply (u : ObjectUniforms M R) : GLCall M R → ObjectUniforms M R
  | GLCall.uniformMatrix4fv Uniform.model value => { u with model := some value }
  | GLCall.uniform3fv Uniform.objectColor value => { u with objectColor := some value }
  | GLCall.uniform1f Uniform.emissionStrength v0 => { u with emissionStrength := some v0 }
  | GLCall.uniform3fv Uniform.emissionColor value => { u with emissionColor := some value }
  | _ => u

/-- Recogniser of the glDrawArrays calls of a log. -/
def GLCall.isDraw : GLCall M R → Bool
  | GLCall.drawArrays _ _ _ => true
  | _ => false

/-- The draw calls of a log, in order, each with the uniforms in force at its
place in the log; u holds the uniforms in force before the log. -/
def drawsFrom (u : ObjectUniforms M R) : List (GLCall M R) → List (DrawCall M R)
  | [] => []
  | GLCall.drawArrays mode first count :: rest =>
      { uniforms := u, mode := mode, first := first, count := count } :: drawsFrom u rest
  | call :: rest => drawsFrom (u.apply call) rest

/-- The per-object uniforms of a program on which none has been uploaded yet. -/
def ObjectUniforms.unset : ObjectUniforms M R :=
  { model := none
    objectColor := none
    emissionStrength := none
    emissionColor := none }

/-- The draw calls of a log issued on a program whose per-object uniforms have
not been uploaded yet. -/
def drawCalls (log : List (GLCall M R)) : List (DrawCall M R) :=
  drawsFrom ObjectUniforms.unset log

/-- The draw of the cube for a building: 36 vertices as triangles, under the
model matrix translate-then-scale of the building and its material. -/
def buildingDraw (mat : GlmMat M R) (b : Building R) : DrawCall M R :=
  { uniforms :=
      { model := some (mat.scale (mat.translate mat.identity b.position) b.scale)
        objectColor := some b.color
        emissionStrength := some b.emissionStrength
        emissionColor := some b.emissionColor }
    mode := GL_TRIANGLES, first := 0, count := 36 }

/-- The draw of the cube for a vehicle: 36 vertices as triangles, translated to
the position of the vehicle and scaled by (1.5, 0.5, 3), emission 0.8 in the
colour of the vehicle. -/
def vehicleDraw (mat : GlmMat M R) (v : Vehicle R) : DrawCall M R :=
  { uniforms :=
      { model := some (mat.scale (mat.translate mat.identity v.position) ⟨1.5, 0.5, 3.0⟩)
        objectColor := some v.color
        emissionStrength := some 0.8
        emissionColor := some v.color }
    mode := GL_TRIANGLES, first := 0, count := 36 }

/-- The draw of the cube for a billboard: 36 vertices as triangles, translated
to its position, rotated about the y axis by its rotation in radians and scaled
by (3, 2, 0.1), emission 0.9 in the colour of the billboard. -/
def billboardDraw (mat : GlmMat M R) (gl : GlmFns R) (b : Billboard R) : DrawCall M R :=
  { uniforms :=
      { model := some (mat.scale
          (mat.rotate (mat.translate mat.identity b.position) (gl.radians b.rotation) ⟨0, 1, 0⟩)
          ⟨3.0, 2.0, 0.1⟩)
        objectColor := some b.color
        emissionStrength := some 0.9
        emissionColor := some b.color }
    mode := GL_TRIANGLES, first := 0, count := 36 }

end Render

/-! ## Reachable scenes and loop traces -/

section Traces

variable {G R : Type} [LinearOrderedField R]

/-- The scenes the program can reach: the scene built by the constructor, and
every scene obtained from a reachable one by a call of FuturisticCity::update. -/
inductive Reachable (m : MathFns R) (eng : RandomEngine G R) : FuturisticCity G R → Prop
  | generated (rd : Nat) : Reachable m eng (FuturisticCity.new m eng rd)
  | updated (c : FuturisticCity G R) (deltaTime : R) :
      Reachable m eng c → Reachable m eng (c.update m deltaTime)

/-- Engine state at the start of iteration i of the building loop, when the loop
starts with the engine in state g. -/
def buildingLoopGen (eng : RandomEngine G R) (g : G) (i : Nat) : G :=
  (fun s => (drawBuilding eng s).next)^[i] g

/-- The building pushed by an iteration of the building loop that starts with
the engine in state g. -/
def drawnBuilding (eng : RandomEngine G R) (g : G) : Building R :=
  makeBuilding (drawBuilding eng g).x (drawBuilding eng g).z (drawBuilding eng g).height
    (drawBuilding eng g).width (drawBuilding eng g).colorChoice

/-! ## Inputs for evaluation -/

/-- A linear congruential test engine: the state is a natural number, seeding
keeps the low 32 bits, a draw maps the low ten bits of the state into the
requested range. -/
def testEngine : RandomEngine Nat R :=
  { seed := fun n => n % 4294967296
    uniform := fun a b g =>
      (a + (b - a) * ((g % 1024 : Nat) : R) / 1024, (1103515245 * g + 12345) % 2147483648) }

/-- Library functions for evaluation over the rationals: the truncated series
1 - t^2/2 and t - t^3/6 in place of cos and sin, and 355/113 in place of M_PI. -/
def testFns : MathFns ℚ :=
  { cos := fun t => 1 - t ^ 2 / 2
    sin := fun t => t - t ^ 3 / 6
    M_PI := 355 / 113 }

/-- GLM stand-ins for evaluation over the rationals: degrees to radians with
355/113 for pi, and the identity for normalize, which is exact on the unit axis
vectors that the evaluations below pass to it. -/
def testGlm : GlmFns ℚ :=
  { radians := fun d => d * (355 / 113) / 180
    normalize := fun v => v }

/-- The globals after the first iteration of the main loop, 1/50 s long: the
loop writes deltaTime and calls processInput while no key event has arrived. -/
def quietFrame : Globals ℚ :=
  processInput testGlm { (Globals.init : Globals ℚ) with deltaTime := 1 / 50 }

/-- The globals on entry to the second call of processInput when, between the
two calls, glfwPollEvents has delivered the presses of W and of left control,
and the second iteration is again 1/50 s long. -/
def controlFrame : Globals ℚ :=
  { key_callback (key_callback quietFrame GLFW_KEY_W GLFW_PRESS)
      GLFW_KEY_LEFT_CONTROL GLFW_PRESS with
    deltaTime := 1 / 50 }

/-- The globals on entry to the third call of processInput when, after the
second call, left control has been released and W is still held. -/
def releasedFrame : Globals ℚ :=
  { key_callback (processInput testGlm controlFrame) GLFW_KEY_LEFT_CONTROL GLFW_RELEASE with
    deltaTime := 1 / 50 }

/-! ## Direction of movement -/

/-- Value 1 for a held key and 0 for a released one. -/
def held (s : Globals R) (key : Int) : R := if s.keys key then 1 else 0

/-- The sum of the directions of the movement keys held in s: cameraFront for W
and its opposite for S, the normalised cross product of cameraFront and cameraUp
for D and its opposite for A, cameraUp for space and its opposite for left shift. -/
def moveDirection (gl : GlmFns R) (s : Globals R) : Vec3 R :=
  Vec3.add
    (Vec3.add (Vec3.smul (held s GLFW_KEY_W - held s GLFW_KEY_S) s.cameraFront)
      (Vec3.smul (held s GLFW_KEY_D - held s GLFW_KEY_A)
        (gl.normalize (Vec3.cross s.cameraFront s.cameraUp))))
    (Vec3.smul (held s GLFW_KEY_SPACE - held s GLFW_KEY_LEFT_SHIFT) s.cameraUp)

end Traces

/-! ## Binary32 arithmetic -/

/-- Rounding of a rational to the nearest integer, ties to the even integer. -/
def roundHalfEven (y : ℚ) : ℤ :=
  if y - ⌊y⌋ < 1 / 2 then ⌊y⌋
  else if 1 / 2 < y - ⌊y⌋ then ⌊y⌋ + 1
  else if ⌊y⌋ % 2 = 0 then ⌊y⌋ else ⌊y⌋ + 1

/-- Exponent of the binade of x in a binary format with least normal exponent
emin: the floor of the base 2 logarithm of the magnitude of x, and emin for the
subnormal range and zero. -/
def binade (emin : ℤ) (x : ℚ) : ℤ := max (Int.log 2 |x|) emin

/-- IEEE 754 rounding to nearest, ties to even, into the binary format with p
significand bits and least normal exponent emin: x is rounded to a multiple of
the unit in the last place of its binade.  Zero has one sign, and a result at or
beyond the overflow threshold of the format stays finite here, so the value is
the one of the format for results below that threshold. -/
def roundTo (p : ℕ) (emin : ℤ) (x : ℚ) : ℚ :=
  (roundHalfEven (x / 2 ^ (binade emin x - ((p : ℤ) - 1))) : ℚ) *
    2 ^ (binade emin x - ((p : ℤ) - 1))

/-- Rounding to binary32, the type float: 24 significand bits, least normal
exponent -126; it is the binary32 result wherever that result is finite, that
is for results of magnitude below 2^128. -/
def fl32 (x : ℚ) : ℚ := roundTo 24 (-126) x

/-- Rounding to binary64, the type double: 53 significand bits, least normal
exponent -1022. -/
def fl64 (x : ℚ) : ℚ := roundTo 53 (-1022) x

/-- Vehicle::update (lines 158-162) with the rounding of float arithmetic: the
product speed * deltaTime, the sum stored in pathAngle and the two products
stored in position are each rounded to binary32, one operation at a time (no
fused multiply-add); m.cos and m.sin stand for whatever values the library
returns for the stored angle, so no property of the library is built in. -/
def Vehicle.updateFloat (m : MathFns ℚ) (v : Vehicle ℚ) (deltaTime : ℚ) : Vehicle ℚ :=
  let pathAngle := fl32 (v.pathAngle + fl32 (v.speed * deltaTime))
  { v with
    pathAngle := pathAngle
    position :=
      { x := fl32 (v.pathRadius * m.cos pathAngle)
        y := v.position.y
        z := fl32 (v.pathRadius * m.sin pathAngle) } }

/-- The vehicle pushed by iteration i of the vehicle loop (lines 296-305) with
the rounding of float arithmetic: the float literals and every float operation
are rounded to binary32; the angle i * (2.0f * M_PI / 8.0f) is computed in
double, M_PI being a double, and rounded to binary32 when stored. -/
def makeVehicleFloat (m : MathFns ℚ) (i : Nat) : Vehicle ℚ :=
  let height : ℚ := fl32 (15 + fl32 ((i : ℚ) * 3))
  let radius : ℚ := fl32 (20 + fl32 ((i : ℚ) * 5))
  let speed : ℚ := fl32 (0.5 + fl32 (((i % 3 : Nat) : ℚ) * fl32 0.3))
  let pos : Vec3 ℚ := ⟨radius, height, 0⟩
  let dir : Vec3 ℚ := ⟨0, 0, 1⟩
  let color : Vec3 ℚ := ⟨1, fl32 0.8, fl32 0.2⟩
  let vehicle := Vehicle.new pos dir speed color radius
  { vehicle with pathAngle := fl32 (fl64 ((i : ℚ) * fl64 (fl64 (2 * m.M_PI) / 8))) }

/-- The vehicle states the program can reach under float arithmetic: the eight
generated vehicles, and every state obtained from a reachable one by a call of
Vehicle::update with any delta. -/
inductive ReachableVehicle (m : MathFns ℚ) : Vehicle ℚ → Prop
  | generated (i : Nat) : i < 8 → ReachableVehicle m (makeVehicleFloat m i)
  | updated (v : Vehicle ℚ) (deltaTime : ℚ) :
      ReachableVehicle m v → ReachableVehicle m (v.updateFloat m deltaTime)

/-- Library values for evaluation under float arithmetic: M_PI is the double
constant of math.h, 884279719003555 / 2^48; cos and sin are the series up to
degree 11 rounded to binary32. -/
def floatFns : MathFns ℚ :=
  { cos := fun t =>
      fl32 (1 - t ^ 2 / 2 + t ^ 4 / 24 - t ^ 6 / 720 + t ^ 8 / 40320 - t ^ 10 / 3628800)
    sin := fun t =>
      fl32 (t - t ^ 3 / 6 + t ^ 5 / 120 - t ^ 7 / 5040 + t ^ 9 / 362880 - t ^ 11 / 39916800)
    M_PI := 884279719003555 / 281474976710656 }

/-- The float literal 0.016f, a frame time of 16 ms. -/
def frame16ms : ℚ := fl32 0.016

/-! ## Lemmas on the generation loops -/

section Lemmas

variable {G R : Type} [LinearOrderedField R]

theorem foldl_buildingStep_vehicles (eng : RandomEngine G R) (l : List Nat)
    (c : FuturisticCity G R) :
    (l.foldl (buildingStep eng) c).vehicles = c.vehicles := by
  induction l generalizing c with
  | nil => rfl
  | cons i l ih => rw [List.foldl_cons, ih]; rfl

theorem foldl_buildingStep_billboards (eng : RandomEngine G R) (l : List Nat)
    (c : FuturisticCity G R) :
    (l.foldl (buildingStep eng) c).billboards = c.billboards := by
  induction l generalizing c with
  | nil => rfl
  | cons i l ih => rw [List.foldl_cons, ih]; rfl

theorem foldl_vehicleStep (m : MathFns R) (l : List Nat) (c : FuturisticCity G R) :
    l.foldl (vehicleStep m) c = { c with vehicles := c.vehicles ++ l.map (makeVehicle m) } := by
  induction l generalizing c with
  | nil => simp
  | cons i l ih => rw [List.foldl_cons, ih]; simp [vehicleStep]

theorem foldl_billboardStep_buildings (eng : RandomEngine G R) (l : List Nat)
    (c : FuturisticCity G R) :
    (l.foldl (billboardStep eng) c).buildings = c.buildings := by
  induction l generalizing c with
  | nil => rfl
  | cons i l ih => rw [List.foldl_cons, ih]; rfl

theorem foldl_billboardStep_vehicles (eng : RandomEngine G R) (l : List Nat)
    (c : FuturisticCity G R) :
    (l.foldl (billboardStep eng) c).vehicles = c.vehicles := by
  induction l generalizing c with
  | nil => rfl
  | cons i l ih => rw [List.foldl_cons, ih]; rfl

theorem foldl_billboardStep_length (eng : RandomEngine G R) (l : List Nat)
    (c : FuturisticCity G R) :
    (l.foldl (billboardStep eng) c).billboards.length = c.billboards.length + l.length := by
  induction l generalizing c with
  | nil => rfl
  | cons i l ih =>
    rw [List.foldl_cons, ih]
    simp [billboardStep]
    omega

theorem generateCity_buildings (m : MathFns R) (eng : RandomEngine G R)
    (c : FuturisticCity G R) :
    (generateCity m eng c).buildings = ((List.range 50).foldl (buildingStep eng) c).buildings := by
  simp only [generateCity, foldl_billboardStep_buildings, foldl_vehicleStep]

theorem generateCity_vehicles (m : MathFns R) (eng : RandomEngine G R)
    (c : FuturisticCity G R) :
    (generateCity m eng c).vehicles = c.vehicles ++ (List.range 8).map (makeVehicle m) := by
  simp only [generateCity, foldl_billboardStep_vehicles, foldl_vehicleStep,
    foldl_buildingStep_vehicles]

theorem new_vehicles (m : MathFns R) (eng : RandomEngine G R) (rd : Nat) :
    (FuturisticCity.new m eng rd).vehicles = (List.range 8).map (makeVehicle m) := by
  simp [FuturisticCity.new, generateCity_vehicles]

end Lemmas

/-! ## Properties of the generated scene -/

section Generated

variable {G R : Type} [LinearOrderedField R]

theorem foldl_buildingStep_range (eng : RandomEngine G R) (n : Nat) (c : FuturisticCity G R) :
    (List.range n).foldl (buildingStep eng) c =
      { c with
        buildings := c.buildings ++
          (List.range n).map (fun i => drawnBuilding eng (buildingLoopGen eng c.gen i))
        gen := buildingLoopGen eng c.gen n } := by
  induction n with
  | zero => simp [buildingLoopGen]
  | succ n ih =>
    rw [List.range_succ, List.foldl_append, ih]
    simp [buildingStep, drawnBuilding, buildingLoopGen, Function.iterate_succ_apply']

theorem new_buildings (m : MathFns R) (eng : RandomEngine G R) (rd : Nat) :
    (FuturisticCity.new m eng rd).buildings =
      (List.range 50).map (fun i => drawnBuilding eng (buildingLoopGen eng (eng.seed rd) i)) := by
  rw [FuturisticCity.new, generateCity_buildings, foldl_buildingStep_range]
  simp

theorem new_buildings_get (m : MathFns R) (eng : RandomEngine G R) (rd : Nat)
    (i : Fin 50) :
    (FuturisticCity.new m eng rd).buildings[(i : Nat)]? =
      some (drawnBuilding eng (buildingLoopGen eng (eng.seed rd) i)) := by
  rw [new_buildings, List.getElem?_map, List.getElem?_range i.isLt]
  rfl

theorem new_vehicles_get (m : MathFns R) (eng : RandomEngine G R) (rd : Nat)
    (i : Fin 8) :
    (FuturisticCity.new m eng rd).vehicles[(i : Nat)]? = some (makeVehicle m i) := by
  rw [new_vehicles, List.getElem?_map, List.getElem?_range i.isLt]
  rfl

end Generated

/-! ## Properties of the animation update -/

section Update

variable {G R : Type} [LinearOrderedField R]

theorem vehicle_update_update (m : MathFns R) (v : Vehicle R) (d1 d2 : R) :
    (v.update m d1).update m d2 = v.update m (d1 + d2) := by
  have h : v.pathAngle + v.speed * d1 + v.speed * d2 = v.pathAngle + v.speed * (d1 + d2) := by
    ring
  simp only [Vehicle.update, h]

theorem billboard_update_update (b : Billboard R) (d1 d2 : R) :
    (b.update d1).update d2 = b.update (d1 + d2) := by
  have h : b.rotation + b.rotationSpeed * d1 + b.rotationSpeed * d2
      = b.rotation + b.rotationSpeed * (d1 + d2) := by ring
  simp only [Billboard.update, h]

theorem city_update_update (m : MathFns R) (c : FuturisticCity G R) (d1 d2 : R) :
    (c.update m d1).update m d2 = c.update m (d1 + d2) := by
  simp only [FuturisticCity.update, List.map_map, add_assoc]
  congr 1
  · exact List.map_congr_left (fun v _ => vehicle_update_update m v d1 d2)
  · exact List.map_congr_left (fun b _ => billboard_update_update b d1 d2)

theorem billboard_update_zero (b : Billboard R) : b.update 0 = b := by
  simp [Billboard.update]

/-- Additivity of the update in exact arithmetic: without rounding, updating by
d1 and then by d2 gives the same pathAngle and the same position, indeed the
same vehicle, as one update by d1 + d2, and the same holds for
FuturisticCity::update on the whole scene.  The float arithmetic of the program
rounds; its behaviour is stated for Vehicle.updateFloat. -/
theorem vehicle_update_additive (m : MathFns R) (d1 d2 : R) :
    (∀ v : Vehicle R,
      ((v.update m d1).update m d2).pathAngle = (v.update m (d1 + d2)).pathAngle ∧
      ((v.update m d1).update m d2).position = (v.update m (d1 + d2)).position ∧
      (v.update m d1).update m d2 = v.update m (d1 + d2)) ∧
    (∀ c : FuturisticCity G R, (c.update m d1).update m d2 = c.update m (d1 + d2)) :=
  ⟨fun v => ⟨by rw [vehicle_update_update], by rw [vehicle_update_update],
      vehicle_update_update m v d1 d2⟩,
    fun c => city_update_update m c d1 d2⟩

/-- C7: for every scene, FuturisticCity::update(0) leaves every billboard, in
particular its rotation, and every pathAngle unchanged, and applying update(0)
n + 1 times gives the same scene as applying it once. -/
theorem update_zero_idempotent (m : MathFns R) (c : FuturisticCity G R) :
    ((c.update m 0).billboards.map fun b => b.rotation) = (c.billboards.map fun b => b.rotation) ∧
    (c.update m 0).billboards = c.billboards ∧
    ((c.update m 0).vehicles.map fun v => v.pathAngle) = (c.vehicles.map fun v => v.pathAngle) ∧
    (∀ n : Nat, (fun s : FuturisticCity G R => s.update m 0)^[n + 1] c = c.update m 0) := by
  have hb : (c.update m 0).billboards = c.billboards := by
    simp only [FuturisticCity.update]
    conv_rhs => rw [← List.map_id c.billboards]
    exact List.map_congr_left (fun b _ => billboard_update_zero b)
  refine ⟨by rw [hb], hb, ?_, ?_⟩
  · simp only [FuturisticCity.update, List.map_map]
    exact List.map_congr_left (fun v _ => by simp [Vehicle.update])
  · intro n
    induction n with
    | zero => rfl
    | succ n ih =>
      rw [Function.iterate_succ_apply', ih, city_update_update, add_zero]

theorem vehicle_update_on_orbit (m : MathFns R) (v : Vehicle R) (d : R) :
    (v.update m d).position =
      ⟨(v.update m d).pathRadius * m.cos (v.update m d).pathAngle, v.position.y,
        (v.update m d).pathRadius * m.sin (v.update m d).pathAngle⟩ := rfl

end Update

/-! ## Vehicles on their orbits -/

section Orbit

/-- C2: in the scene built by the constructor, for any engine and seed, the
vehicle of index 4 has pathRadius 40, pathAngle pi and position (40, 27, 0), so
its position is not (pathRadius * cos pathAngle, 27, pathRadius * sin pathAngle),
whose first component is -40.  The generated state breaks the position
invariant that Vehicle::update establishes. -/
theorem generated_vehicle_off_orbit {G : Type} (eng : RandomEngine G ℝ) (rd : Nat) :
    ∃ v : Vehicle ℝ,
      (FuturisticCity.new ⟨Real.cos, Real.sin, Real.pi⟩ eng rd).vehicles[4]? = some v ∧
      v.pathRadius = 40 ∧ v.pathAngle = Real.pi ∧ v.position = ⟨40, 27, 0⟩ ∧
      v.pathRadius * Real.cos v.pathAngle = -40 ∧
      v.position ≠
        ⟨v.pathRadius * Real.cos v.pathAngle, 27, v.pathRadius * Real.sin v.pathAngle⟩ := by
  refine ⟨makeVehicle ⟨Real.cos, Real.sin, Real.pi⟩ 4,
    new_vehicles_get _ eng rd 4, ?_, ?_, ?_, ?_, ?_⟩
  · norm_num [makeVehicle, Vehicle.new]
  · simp only [makeVehicle, Vehicle.new]; push_cast; ring
  · simp only [makeVehicle, Vehicle.new]; norm_num
  · have h : ((4 : Nat) : ℝ) * (2 * Real.pi / 8) = Real.pi := by push_cast; ring
    simp only [makeVehicle, Vehicle.new, h, Real.cos_pi]; norm_num
  · have h : ((4 : Nat) : ℝ) * (2 * Real.pi / 8) = Real.pi := by push_cast; ring
    simp only [makeVehicle, Vehicle.new, h, Real.cos_pi]
    intro hne
    have hx := congrArg Vec3.x hne
    norm_num at hx

/-- The circle invariant in exact arithmetic: without rounding and with the real
cosine and sine, in every reachable scene every vehicle satisfies
position.x^2 + position.z^2 = pathRadius^2, the radii of the eight vehicles are
20 + 5 i in stored order, and an update leaves every pathRadius unchanged.  The
float arithmetic of the program rounds; its behaviour is stated for
ReachableVehicle. -/
theorem reachable_vehicle_on_circle {G : Type} (eng : RandomEngine G ℝ)
    (c : FuturisticCity G ℝ) (hc : Reachable ⟨Real.cos, Real.sin, Real.pi⟩ eng c) :
    (∀ v ∈ c.vehicles, v.position.x ^ 2 + v.position.z ^ 2 = v.pathRadius ^ 2) ∧
    c.vehicles.map (fun v => v.pathRadius) = (List.range 8).map (fun i => 20 + (i : ℝ) * 5) ∧
    (∀ d : ℝ, ((c.update ⟨Real.cos, Real.sin, Real.pi⟩ d).vehicles.map fun v => v.pathRadius)
      = c.vehicles.map fun v => v.pathRadius) := by
  have hupd : ∀ (c : FuturisticCity G ℝ) (d : ℝ),
      ((c.update ⟨Real.cos, Real.sin, Real.pi⟩ d).vehicles.map fun v => v.pathRadius)
        = c.vehicles.map fun v => v.pathRadius := by
    intro c d
    simp only [FuturisticCity.update, List.map_map]
    exact List.map_congr_left (fun v _ => rfl)
  refine ⟨?_, ?_, hupd c⟩
  · induction hc with
    | generated rd =>
      intro v hv
      rw [new_vehicles, List.mem_map] at hv
      obtain ⟨i, _, rfl⟩ := hv
      simp only [makeVehicle, Vehicle.new]
      ring
    | updated c d _ ih =>
      intro v hv
      simp only [FuturisticCity.update, List.mem_map] at hv
      obtain ⟨w, _, rfl⟩ := hv
      simp only [Vehicle.update]
      have h := Real.cos_sq_add_sin_sq (w.pathAngle + w.speed * d)
      linear_combination w.pathRadius ^ 2 * h
  · induction hc with
    | generated rd =>
      rw [new_vehicles, List.map_map]
      exact List.map_congr_left (fun i _ => rfl)
    | updated c d _ ih => rw [hupd, ih]

/-- Instance of the circle invariant in exact arithmetic: the scene generated by
the test engine from seed 7 and updated once by 2 seconds is reachable, and its
vehicles lie on their circles. -/
theorem reachable_vehicle_on_circle_witness :
    Reachable ⟨Real.cos, Real.sin, Real.pi⟩ (testEngine : RandomEngine Nat ℝ)
      ((FuturisticCity.new ⟨Real.cos, Real.sin, Real.pi⟩ testEngine 7).update
        ⟨Real.cos, Real.sin, Real.pi⟩ 2) ∧
    (∀ v ∈ ((FuturisticCity.new ⟨Real.cos, Real.sin, Real.pi⟩
        (testEngine : RandomEngine Nat ℝ) 7).update ⟨Real.cos, Real.sin, Real.pi⟩ 2).vehicles,
      v.position.x ^ 2 + v.position.z ^ 2 = v.pathRadius ^ 2) :=
  ⟨Reachable.updated _ _ (Reachable.generated 7),
    (reachable_vehicle_on_circle testEngine _
      (Reachable.updated _ _ (Reachable.generated 7))).1⟩

end Orbit

/-! ## Buildings -/

section Buildings

variable {G R : Type} [LinearOrderedField R]

/-- C4: for every index i below 50, building i of the generated scene is built
from the height h drawn in iteration i, and its emissionStrength is 0.3 when
h > 20 and 0.1 otherwise; a drawn height of exactly 20 gives 0.1. -/
theorem building_emission_by_height (m : MathFns R) (eng : RandomEngine G R) (rd : Nat) :
    (∀ i : Fin 50, ∃ b : Building R,
      (FuturisticCity.new m eng rd).buildings[(i : Nat)]? = some b ∧
      b.scale.y = (drawBuilding eng (buildingLoopGen eng (eng.seed rd) i)).height ∧
      b.emissionStrength =
        (if (drawBuilding eng (buildingLoopGen eng (eng.seed rd) i)).height > 20
          then 0.3 else 0.1) ∧
      (b.emissionStrength = 0.3 ↔
        (drawBuilding eng (buildingLoopGen eng (eng.seed rd) i)).height > 20) ∧
      (b.emissionStrength = 0.1 ↔
        ¬ (drawBuilding eng (buildingLoopGen eng (eng.seed rd) i)).height > 20)) ∧
    (∀ x z width colorChoice : R,
      (makeBuilding x z 20 width colorChoice).emissionStrength = 0.1) := by
  have h31 : (0.3 : R) ≠ 0.1 := by norm_num
  refine ⟨fun i => ⟨_, new_buildings_get m eng rd i, rfl, rfl, ?_, ?_⟩, ?_⟩
  · simp only [drawnBuilding, makeBuilding]
    split_ifs with h
    · simp [h]
    · simp [h, h31.symm]
  · simp only [drawnBuilding, makeBuilding]
    split_ifs with h
    · simp [h, h31]
    · simp [h]
  · intro x z width colorChoice
    simp [makeBuilding]

/-- Witness of C4 by evaluation: with the test engine seeded with 5, building 0
is drawn with height 27905/1024, above 20, and has emissionStrength 0.3. -/
theorem building_emission_by_height_witness :
    ∃ b : Building ℚ,
      (FuturisticCity.new testFns (testEngine : RandomEngine Nat ℚ) 5).buildings[0]? = some b ∧
      b.scale.y = 27905 / 1024 ∧ b.emissionStrength = 0.3 := by
  obtain ⟨b, hb, hy, he, _, _⟩ :=
    (building_emission_by_height testFns (testEngine : RandomEngine Nat ℚ) 5).1 0
  have hh : (drawBuilding (testEngine : RandomEngine Nat ℚ)
      (buildingLoopGen (testEngine : RandomEngine Nat ℚ)
        ((testEngine : RandomEngine Nat ℚ).seed 5) ((0 : Fin 50) : Nat))).height
      = 27905 / 1024 := by
    norm_num [drawBuilding, buildingLoopGen, testEngine]
  refine ⟨b, hb, hy.trans hh, ?_⟩
  rw [he, hh]
  norm_num

/-- C8: for every index i below 50, building i of the generated scene, built from
the drawn height h and width w, has position.y = h / 2 and scale = (w, h, w), so
position.y - scale.y / 2 = 0; under the model transform of the render pass every
vertex of the unit cube has y = -0.5 and lands at height 0, or has y = 0.5 and
lands at height h. -/
theorem building_sits_on_ground (m : MathFns R) (eng : RandomEngine G R) (rd : Nat)
    (i : Fin 50) :
    ∃ b : Building R,
      (FuturisticCity.new m eng rd).buildings[(i : Nat)]? = some b ∧
      b.position.y = (drawBuilding eng (buildingLoopGen eng (eng.seed rd) i)).height / 2 ∧
      b.scale = ⟨(drawBuilding eng (buildingLoopGen eng (eng.seed rd) i)).width,
        (drawBuilding eng (buildingLoopGen eng (eng.seed rd) i)).height,
        (drawBuilding eng (buildingLoopGen eng (eng.seed rd) i)).width⟩ ∧
      b.position.y - b.scale.y / 2 = 0 ∧
      (∀ p ∈ (cubePositions : List (Vec3 R)),
        (p.y = -0.5 ∧ (buildingModel b p).y = 0) ∨
        (p.y = 0.5 ∧ (buildingModel b p).y =
          (drawBuilding eng (buildingLoopGen eng (eng.seed rd) i)).height)) := by
  refine ⟨_, new_buildings_get m eng rd i, rfl, rfl, ?_, ?_⟩
  · simp [drawnBuilding, makeBuilding]
  · intro p hp
    have hy : p.y = -0.5 ∨ p.y = 0.5 := by
      simp only [cubePositions, List.mem_cons, List.mem_singleton, List.not_mem_nil,
        or_false] at hp
      rcases hp with h | h | h | h | h | h | h | h | h | h | h | h | h | h | h | h | h | h |
        h | h | h | h | h | h | h | h | h | h | h | h | h | h | h | h | h | h <;>
        subst h <;> simp
    rcases hy with h | h
    · left
      refine ⟨h, ?_⟩
      simp only [buildingModel, Vec3.add, Vec3.mul, drawnBuilding, makeBuilding, h]
      norm_num
      ring
    · right
      refine ⟨h, ?_⟩
      simp only [buildingModel, Vec3.add, Vec3.mul, drawnBuilding, makeBuilding, h]
      norm_num
      ring

end Buildings

/-! ## One update of the generated scene -/

section OneUpdate

theorem exp_half_I_series :
    Complex.abs (Complex.exp (((1 / 2 : ℝ) : ℂ) * Complex.I) -
      ∑ k ∈ Finset.range 6, (((1 / 2 : ℝ) : ℂ) * Complex.I) ^ k / (k.factorial : ℂ))
      ≤ 1 / 39000 := by
  have hx : Complex.abs (((1 / 2 : ℝ) : ℂ) * Complex.I) ≤ 1 := by
    rw [map_mul, Complex.abs_I, mul_one, Complex.abs_ofReal]
    rw [abs_of_pos] <;> norm_num
  have h := Complex.exp_bound hx (n := 6) (by norm_num)
  refine h.trans ?_
  rw [map_mul, Complex.abs_I, mul_one, Complex.abs_ofReal,
    abs_of_pos (by norm_num : (0 : ℝ) < 1 / 2)]
  norm_num [Nat.factorial]

theorem cos_half_approx : |Real.cos (1 / 2) - 337 / 384| ≤ 1 / 39000 := by
  have hre := (Complex.abs_re_le_abs _).trans exp_half_I_series
  rw [Complex.sub_re, Complex.exp_ofReal_mul_I_re] at hre
  convert hre using 2
  simp [Finset.sum_range_succ, Nat.factorial, pow_succ, Complex.div_re]
  norm_num

theorem sin_half_approx : |Real.sin (1 / 2) - 1841 / 3840| ≤ 1 / 39000 := by
  have him := (Complex.abs_im_le_abs _).trans exp_half_I_series
  rw [Complex.sub_im, Complex.exp_ofReal_mul_I_im] at him
  convert him using 2
  simp [Finset.sum_range_succ, Nat.factorial, pow_succ, Complex.div_im]
  norm_num

end OneUpdate

/-! ## Determinism of the generator -/

section Determinism

variable {G R : Type} [LinearOrderedField R]

theorem new_billboards_length (m : MathFns R) (eng : RandomEngine G R) (rd : Nat) :
    (FuturisticCity.new m eng rd).billboards.length = 15 := by
  simp [FuturisticCity.new, generateCity, foldl_billboardStep_length, foldl_vehicleStep,
    foldl_buildingStep_billboards]

/-- C6: the generated scene is a function of the engine state the constructor
starts from: two seeds that give the same engine state give equal buildings,
vehicles and billboards, element for element; every generated scene has exactly
50 buildings, 8 vehicles and 15 billboards. -/
theorem generateCity_deterministic (m : MathFns R) (eng : RandomEngine G R) (rd1 rd2 : Nat)
    (hseed : eng.seed rd1 = eng.seed rd2) :
    (FuturisticCity.new m eng rd1).buildings = (FuturisticCity.new m eng rd2).buildings ∧
    (FuturisticCity.new m eng rd1).vehicles = (FuturisticCity.new m eng rd2).vehicles ∧
    (FuturisticCity.new m eng rd1).billboards = (FuturisticCity.new m eng rd2).billboards ∧
    (FuturisticCity.new m eng rd1).buildings.length = 50 ∧
    (FuturisticCity.new m eng rd1).vehicles.length = 8 ∧
    (FuturisticCity.new m eng rd1).billboards.length = 15 := by
  have hnew : FuturisticCity.new m eng rd1 = FuturisticCity.new m eng rd2 := by
    simp only [FuturisticCity.new, hseed]
  refine ⟨by rw [hnew], by rw [hnew], by rw [hnew], ?_, ?_, new_billboards_length m eng rd1⟩
  · simp [new_buildings]
  · simp [new_vehicles]

/-- Witness of C6: the test engine keeps the low 32 bits of the seed, so the
seeds 5 and 5 + 2^32 start it in the same state and give the same scene. -/
theorem generateCity_deterministic_witness :
    (testEngine : RandomEngine Nat ℚ).seed 5 = (testEngine : RandomEngine Nat ℚ).seed 4294967301 ∧
    (FuturisticCity.new testFns (testEngine : RandomEngine Nat ℚ) 5).buildings =
      (FuturisticCity.new testFns (testEngine : RandomEngine Nat ℚ) 4294967301).buildings ∧
    (FuturisticCity.new testFns (testEngine : RandomEngine Nat ℚ) 5).buildings.length = 50 :=
  ⟨by decide,
    (generateCity_deterministic testFns testEngine 5 4294967301 (by decide)).1,
    (generateCity_deterministic testFns testEngine 5 4294967301 (by decide)).2.2.2.1⟩

end Determinism

/-! ## Properties of the camera and input code -/

theorem vec3_eq_iff {α : Type} (a b : Vec3 α) :
    a = b ↔ a.x = b.x ∧ a.y = b.y ∧ a.z = b.z := by
  cases a
  cases b
  simp

section CameraProps

variable {R : Type} [LinearOrderedField R]

theorem ite_add_eq (b : Bool) (p v : Vec3 R) :
    (if b = true then Vec3.add p v else p) =
      Vec3.add p (Vec3.smul (if b = true then 1 else 0) v) := by
  cases b <;> simp [vec3_eq_iff, Vec3.add, Vec3.smul]

theorem ite_sub_eq (b : Bool) (p v : Vec3 R) :
    (if b = true then Vec3.sub p v else p) =
      Vec3.add p (Vec3.smul (-(if b = true then 1 else 0)) v) := by
  cases b <;> simp [vec3_eq_iff, Vec3.add, Vec3.sub, Vec3.smul, sub_eq_add_neg]

theorem processInput_cameraPos (gl : GlmFns R) (t : Globals R) :
    (processInput gl t).cameraPos =
      Vec3.add t.cameraPos (Vec3.smul (t.cameraSpeed * t.deltaTime) (moveDirection gl t)) := by
  simp only [processInput, ite_add_eq, ite_sub_eq]
  rw [vec3_eq_iff]
  simp only [Vec3.add, Vec3.smul, Vec3.muls, moveDirection, held]
  refine ⟨?_, ?_, ?_⟩ <;> ring

/-- C9: after every call of mouse_callback, for any previous globals (any yaw
and pitch) and any cursor coordinates, the pitch lies in [-89, 89]. -/
theorem mouse_callback_pitch_clamped (m : MathFns R) (gl : GlmFns R) (s : Globals R)
    (xpos ypos : R) :
    -89 ≤ (mouse_callback m gl s xpos ypos).pitch ∧
    (mouse_callback m gl s xpos ypos).pitch ≤ 89 := by
  simp only [mouse_callback]
  split_ifs <;> constructor <;> linarith

/-- C10, as stated, fails: in the second iteration of the main loop, with W and
left control pressed since the first one and a delta of 1/50 s, processInput
moves the camera from (0, 20, 50) to (0, 20, 49.8), a translation of 10 * d
along cameraFront, while the claimed translation of 25 * d would lead to
(0, 20, 49.5). -/
theorem processInput_control_not_same_call :
    controlFrame.keys GLFW_KEY_LEFT_CONTROL = true ∧
    controlFrame.keys GLFW_KEY_W = true ∧
    controlFrame.keys GLFW_KEY_S = false ∧
    controlFrame.keys GLFW_KEY_A = false ∧
    controlFrame.keys GLFW_KEY_D = false ∧
    controlFrame.keys GLFW_KEY_SPACE = false ∧
    controlFrame.keys GLFW_KEY_LEFT_SHIFT = false ∧
    controlFrame.deltaTime = 1 / 50 ∧
    controlFrame.cameraPos = ⟨0, 20, 50⟩ ∧
    controlFrame.cameraFront = ⟨0, 0, -1⟩ ∧
    (processInput testGlm controlFrame).cameraPos = ⟨0, 20, 50 - 10 * (1 / 50)⟩ ∧
    (processInput testGlm controlFrame).cameraPos ≠
      Vec3.add controlFrame.cameraPos
        (Vec3.smul (25 * controlFrame.deltaTime) controlFrame.cameraFront) := by
  have hW : controlFrame.keys GLFW_KEY_W = true := by decide
  have hS : controlFrame.keys GLFW_KEY_S = false := by decide
  have hA : controlFrame.keys GLFW_KEY_A = false := by decide
  have hD : controlFrame.keys GLFW_KEY_D = false := by decide
  have hSp : controlFrame.keys GLFW_KEY_SPACE = false := by decide
  have hSh : controlFrame.keys GLFW_KEY_LEFT_SHIFT = false := by decide
  have hspeed : controlFrame.cameraSpeed = 10 := rfl
  have hdelta : controlFrame.deltaTime = 1 / 50 := rfl
  have hfront : controlFrame.cameraFront = ⟨0, 0, -1⟩ := rfl
  have hpos0 : controlFrame.cameraPos = ⟨0, 20, 50⟩ := rfl
  have hpos : (processInput testGlm controlFrame).cameraPos = ⟨0, 20, 50 - 10 * (1 / 50)⟩ := by
    simp only [processInput, hW, hS, hA, hD, hSp, hSh, hspeed, hdelta, hfront, hpos0]
    norm_num [Vec3.add, Vec3.smul]
  refine ⟨by decide, hW, hS, hA, hD, hSp, hSh, hdelta, hpos0, hfront, hpos, ?_⟩
  rw [hpos, hpos0, hdelta, hfront]
  intro h
  have hz := congrArg Vec3.z h
  norm_num [Vec3.add, Vec3.smul] at hz

/-- C10, amended: a call of processInput translates the camera by
cameraSpeed * deltaTime times the sum of the directions of the held movement
keys, with cameraSpeed the value on entry (with only W held: by
cameraSpeed * deltaTime * cameraFront); it leaves cameraSpeed at 25 when left
control is held during the call and at 10 when it is not; cameraSpeed is 10
before the first call; so a call that starts with the cameraSpeed left by an
earlier call moves at 25 or 10 according to the left control key in that earlier
call. -/
theorem processInput_speed_from_entry (gl : GlmFns R) (s : Globals R) :
    (processInput gl s).cameraPos =
      Vec3.add s.cameraPos (Vec3.smul (s.cameraSpeed * s.deltaTime) (moveDirection gl s)) ∧
    (s.keys GLFW_KEY_W = true → s.keys GLFW_KEY_S = false → s.keys GLFW_KEY_A = false →
      s.keys GLFW_KEY_D = false → s.keys GLFW_KEY_SPACE = false →
      s.keys GLFW_KEY_LEFT_SHIFT = false →
      (processInput gl s).cameraPos =
        Vec3.add s.cameraPos (Vec3.smul (s.cameraSpeed * s.deltaTime) s.cameraFront)) ∧
    (processInput gl s).cameraSpeed = (if s.keys GLFW_KEY_LEFT_CONTROL then 25 else 10) ∧
    (Globals.init : Globals R).cameraSpeed = 10 ∧
    (∀ s2 : Globals R, s2.cameraSpeed = (processInput gl s).cameraSpeed →
      (processInput gl s2).cameraPos =
        Vec3.add s2.cameraPos
          (Vec3.smul ((if s.keys GLFW_KEY_LEFT_CONTROL then 25 else 10) * s2.deltaTime)
            (moveDirection gl s2))) := by
  refine ⟨processInput_cameraPos gl s, ?_, rfl, rfl, ?_⟩
  · intro hW hS hA hD hSp hSh
    simp only [processInput, hW, hS, hA, hD, hSp, hSh]
    simp
  · intro s2 h2
    rw [processInput_cameraPos gl s2, h2]
    rfl

/-- Witness of the amended C10: the third call of processInput, entered with W
held and left control released after a second call during which left control was
held, moves the camera at speed 25. -/
theorem processInput_speed_from_entry_witness :
    releasedFrame.cameraSpeed = (processInput testGlm controlFrame).cameraSpeed ∧
    releasedFrame.keys GLFW_KEY_LEFT_CONTROL = false ∧
    (processInput testGlm releasedFrame).cameraPos =
      Vec3.add releasedFrame.cameraPos
        (Vec3.smul ((if controlFrame.keys GLFW_KEY_LEFT_CONTROL then 25 else 10) *
            releasedFrame.deltaTime)
          (moveDirection testGlm releasedFrame)) :=
  ⟨rfl, by decide,
    (processInput_speed_from_entry testGlm controlFrame).2.2.2.2 releasedFrame rfl⟩

end CameraProps

/-! ## Properties of the render pass -/

section LogReading

variable {M R : Type}

theorem drawsFrom_append (u : ObjectUniforms M R) (l1 l2 : List (GLCall M R)) :
    drawsFrom u (l1 ++ l2) = drawsFrom u l1 ++ drawsFrom (l1.foldl ObjectUniforms.apply u) l2 := by
  induction l1 generalizing u with
  | nil => rfl
  | cons call rest ih =>
    cases call <;> simp [drawsFrom, ih, ObjectUniforms.apply]

theorem drawsFrom_length (u : ObjectUniforms M R) (log : List (GLCall M R)) :
    (drawsFrom u log).length = log.countP GLCall.isDraw := by
  induction log generalizing u with
  | nil => rfl
  | cons call rest ih =>
    cases call <;> simp [drawsFrom, ih, GLCall.isDraw]

theorem drawsFrom_foldl_renderBuilding (mat : GlmMat M R) (u : ObjectUniforms M R)
    (l : List (Building R)) (log : List (GLCall M R)) :
    drawsFrom u (l.foldl (renderBuilding mat) log) =
      drawsFrom u log ++ l.map (buildingDraw mat) := by
  induction l generalizing log with
  | nil => simp
  | cons b l ih =>
    rw [List.foldl_cons, ih, renderBuilding, drawsFrom_append]
    simp [drawsFrom, ObjectUniforms.apply, buildingDraw]

end LogReading

section RenderProps

variable {G M R : Type} [LinearOrderedField R]

theorem drawsFrom_foldl_renderVehicle (mat : GlmMat M R) (u : ObjectUniforms M R)
    (l : List (Vehicle R)) (log : List (GLCall M R)) :
    drawsFrom u (l.foldl (renderVehicle mat) log) =
      drawsFrom u log ++ l.map (vehicleDraw mat) := by
  induction l generalizing log with
  | nil => simp
  | cons v l ih =>
    rw [List.foldl_cons, ih, renderVehicle, drawsFrom_append]
    simp [drawsFrom, ObjectUniforms.apply, vehicleDraw]

theorem drawsFrom_foldl_renderBillboard (mat : GlmMat M R) (gl : GlmFns R)
    (u : ObjectUniforms M R) (l : List (Billboard R)) (log : List (GLCall M R)) :
    drawsFrom u (l.foldl (renderBillboard mat gl) log) =
      drawsFrom u log ++ l.map (billboardDraw mat gl) := by
  induction l generalizing log with
  | nil => simp
  | cons b l ih =>
    rw [List.foldl_cons, ih, renderBillboard, drawsFrom_append]
    simp [drawsFrom, ObjectUniforms.apply, billboardDraw]

theorem render_drawCalls (mat : GlmMat M R) (gl : GlmFns R) (shaderProgram VAO : Nat)
    (s : Globals R) (c : FuturisticCity G R) (view projection : M) :
    drawCalls (c.render mat gl shaderProgram VAO s view projection).2 =
      c.buildings.map (buildingDraw mat) ++
        (c.vehicles.map (vehicleDraw mat) ++ c.billboards.map (billboardDraw mat gl)) := by
  simp only [drawCalls, FuturisticCity.render, drawsFrom_foldl_renderBillboard,
    drawsFrom_foldl_renderVehicle, drawsFrom_foldl_renderBuilding]
  simp [drawsFrom, ObjectUniforms.apply]

theorem render_draw_count (mat : GlmMat M R) (gl : GlmFns R) (shaderProgram VAO : Nat)
    (s : Globals R) (c : FuturisticCity G R) (view projection : M) :
    (c.render mat gl shaderProgram VAO s view projection).2.countP GLCall.isDraw =
      c.buildings.length + c.vehicles.length + c.billboards.length := by
  rw [← drawsFrom_length ObjectUniforms.unset]
  have h := render_drawCalls mat gl shaderProgram VAO s c view projection
  rw [drawCalls] at h
  rw [h]
  simp [Nat.add_assoc]

/-- C11: for every scene, one call of FuturisticCity::render issues as its draw
calls, in order, one draw per building, then one per vehicle, then one per
billboard, each collection in stored order and each draw under the model matrix
and material of its entity; the number of glDrawArrays calls is the number of
entities, each draws 36 vertices from index 0 as triangles; render returns the
scene unchanged; for a generated scene the number of draw calls is 73. -/
theorem render_one_draw_per_entity (mat : GlmMat M R) (gl : GlmFns R)
    (shaderProgram VAO : Nat) (s : Globals R) (c : FuturisticCity G R) (view projection : M)
    (m : MathFns R) (eng : RandomEngine G R) (rd : Nat) :
    drawCalls (c.render mat gl shaderProgram VAO s view projection).2 =
      c.buildings.map (buildingDraw mat) ++
        (c.vehicles.map (vehicleDraw mat) ++ c.billboards.map (billboardDraw mat gl)) ∧
    (c.render mat gl shaderProgram VAO s view projection).2.countP GLCall.isDraw =
      c.buildings.length + c.vehicles.length + c.billboards.length ∧
    (∀ d ∈ drawCalls (c.render mat gl shaderProgram VAO s view projection).2,
      d.mode = GL_TRIANGLES ∧ d.first = 0 ∧ d.count = 36) ∧
    (c.render mat gl shaderProgram VAO s view projection).1 = c ∧
    ((FuturisticCity.new m eng rd).render mat gl shaderProgram VAO s view projection).2.countP
      GLCall.isDraw = 73 := by
  refine ⟨render_drawCalls mat gl shaderProgram VAO s c view projection,
    render_draw_count mat gl shaderProgram VAO s c view projection, ?_, rfl, ?_⟩
  · intro d hd
    rw [render_drawCalls] at hd
    simp only [List.mem_append, List.mem_map] at hd
    rcases hd with ⟨b, _, rfl⟩ | ⟨v, _, rfl⟩ | ⟨b, _, rfl⟩
    · exact ⟨rfl, rfl, rfl⟩
    · exact ⟨rfl, rfl, rfl⟩
    · exact ⟨rfl, rfl, rfl⟩
  · rw [render_draw_count, new_buildings, new_vehicles, new_billboards_length]
    simp

end RenderProps

/-! ## Properties of binary32 rounding -/

section Rounding

theorem roundHalfEven_sub_le (y : ℚ) : |(roundHalfEven y : ℚ) - y| ≤ 1 / 2 := by
  have h1 := Int.floor_le y
  have h2 := Int.lt_floor_add_one y
  unfold roundHalfEven
  split_ifs with ha hb hc
  · rw [abs_le]; constructor <;> linarith
  · push_cast; rw [abs_le]; constructor <;> linarith
  · rw [abs_le]; constructor <;> linarith
  · push_cast; rw [abs_le]; constructor <;> linarith

theorem roundHalfEven_intCast (k : ℤ) : roundHalfEven (k : ℚ) = k := by
  simp [roundHalfEven]

theorem roundTo_sub_le (p : ℕ) (emin : ℤ) (x : ℚ) :
    |roundTo p emin x - x| ≤ 2 ^ (binade emin x - (p : ℤ)) := by
  have hpos : (0 : ℚ) < 2 ^ (binade emin x - ((p : ℤ) - 1)) := by positivity
  have h := roundHalfEven_sub_le (x / 2 ^ (binade emin x - ((p : ℤ) - 1)))
  have hx : x = x / 2 ^ (binade emin x - ((p : ℤ) - 1)) * 2 ^ (binade emin x - ((p : ℤ) - 1)) := by
    field_simp
  have e1 : roundTo p emin x - x =
      ((roundHalfEven (x / 2 ^ (binade emin x - ((p : ℤ) - 1))) : ℚ)
        - x / 2 ^ (binade emin x - ((p : ℤ) - 1))) * 2 ^ (binade emin x - ((p : ℤ) - 1)) := by
    rw [sub_mul, ← hx]; rfl
  rw [e1, abs_mul, abs_of_pos hpos]
  have e2 : (2 : ℚ) ^ (binade emin x - (p : ℤ)) = 1 / 2 * 2 ^ (binade emin x - ((p : ℤ) - 1)) := by
    rw [show binade emin x - ((p : ℤ) - 1) = (binade emin x - (p : ℤ)) + 1 by ring,
      zpow_add_one₀ (by norm_num : (2 : ℚ) ≠ 0)]
    ring
  rw [e2]
  exact mul_le_mul_of_nonneg_right h hpos.le

theorem roundTo_zero (p : ℕ) (emin : ℤ) : roundTo p emin 0 = 0 := by
  simp [roundTo, roundHalfEven]

theorem fl32_sub_le (x : ℚ) : |fl32 x - x| ≤ |x| / 2 ^ 24 + 1 / 2 ^ 150 := by
  rcases eq_or_ne x 0 with rfl | hx
  · simp [fl32, roundTo_zero]
  have hpos : 0 < |x| := abs_pos.mpr hx
  have h := roundTo_sub_le 24 (-126) x
  refine h.trans ?_
  rcases le_total (Int.log 2 |x|) (-126) with hl | hl
  · have hb : binade (-126) x = -126 := max_eq_right hl
    rw [hb]
    have : (0 : ℚ) ≤ |x| / 2 ^ 24 := by positivity
    have e : (2 : ℚ) ^ ((-126 : ℤ) - ((24 : ℕ) : ℤ)) = 1 / 2 ^ 150 := by
      rw [show (-126 : ℤ) - ((24 : ℕ) : ℤ) = -((150 : ℕ) : ℤ) by norm_num, zpow_neg, zpow_natCast]
      norm_num
    rw [e]
    linarith
  · have hb : binade (-126) x = Int.log 2 |x| := max_eq_left hl
    rw [hb]
    have hle : ((2 : ℕ) : ℚ) ^ Int.log 2 |x| ≤ |x| := Int.zpow_log_le_self (by norm_num) hpos
    have e : (2 : ℚ) ^ (Int.log 2 |x| - ((24 : ℕ) : ℤ)) = (2 : ℚ) ^ Int.log 2 |x| / 2 ^ 24 := by
      rw [zpow_sub₀ (by norm_num : (2 : ℚ) ≠ 0), zpow_natCast]
    rw [e]
    have h2 : (2 : ℚ) ^ Int.log 2 |x| / 2 ^ 24 ≤ |x| / 2 ^ 24 := by
      apply div_le_div_of_nonneg_right _ (by positivity)
      exact_mod_cast hle
    have : (0 : ℚ) ≤ 1 / 2 ^ 150 := by positivity
    linarith

theorem binade_eq_of {emin e : ℤ} {x : ℚ} (hlo : (2 : ℚ) ^ e ≤ |x|) (hhi : |x| < 2 ^ (e + 1))
    (hemin : emin ≤ e) : binade emin x = e := by
  have hpos : 0 < |x| := lt_of_lt_of_le (by positivity) hlo
  have h1 : e ≤ Int.log 2 |x| :=
    (Int.zpow_le_iff_le_log (by norm_num) hpos).mp (by exact_mod_cast hlo)
  have h2 : Int.log 2 |x| < e + 1 :=
    (Int.lt_zpow_iff_log_lt (by norm_num) hpos).mp (by exact_mod_cast hhi)
  have h3 : Int.log 2 |x| = e := by omega
  rw [binade, h3]
  exact max_eq_left hemin

theorem roundTo_eq_of {p : ℕ} {emin e : ℤ} {x : ℚ} {n : ℤ} (hlo : (2 : ℚ) ^ e ≤ x)
    (hhi : x < 2 ^ (e + 1)) (hemin : emin ≤ e)
    (hn : roundHalfEven (x / 2 ^ (e - ((p : ℤ) - 1))) = n) :
    roundTo p emin x = (n : ℚ) * 2 ^ (e - ((p : ℤ) - 1)) := by
  have hpos : 0 < x := lt_of_lt_of_le (by positivity) hlo
  rw [← abs_of_pos hpos] at hlo hhi
  rw [roundTo, binade_eq_of hlo hhi hemin, hn]

theorem roundTo_dyadic {p : ℕ} {emin : ℤ} (n k : ℤ) (hn : |n| < 2 ^ p)
    (hk : emin - ((p : ℤ) - 1) ≤ k) :
    roundTo p emin ((n : ℚ) * 2 ^ k) = (n : ℚ) * 2 ^ k := by
  rcases eq_or_ne n 0 with rfl | hn0
  · simp [roundTo_zero]
  have h2 : (2 : ℚ) ≠ 0 := by norm_num
  have hxpos : 0 < |(n : ℚ) * 2 ^ k| := by
    rw [abs_pos]
    exact mul_ne_zero (by exact_mod_cast hn0) (zpow_ne_zero _ h2)
  have hlt : |(n : ℚ) * 2 ^ k| < ((2 : ℕ) : ℚ) ^ (k + p) := by
    rw [abs_mul, abs_of_pos (by positivity : (0 : ℚ) < 2 ^ k), zpow_add₀ (by norm_num),
      mul_comm, zpow_natCast]
    apply mul_lt_mul_of_pos_left _ (by positivity)
    have : ((|n| : ℤ) : ℚ) < ((2 ^ p : ℤ) : ℚ) := by exact_mod_cast hn
    simpa using this
  have hlog : Int.log 2 |(n : ℚ) * 2 ^ k| < k + p :=
    (Int.lt_zpow_iff_log_lt (by norm_num) hxpos).mp hlt
  have hb : binade emin ((n : ℚ) * 2 ^ k) - ((p : ℤ) - 1) ≤ k := by
    rw [binade]
    rcases le_total (Int.log 2 |(n : ℚ) * 2 ^ k|) emin with h | h
    · rw [max_eq_right h]; omega
    · rw [max_eq_left h]; omega
  obtain ⟨j, hj⟩ : ∃ j : ℕ, k = binade emin ((n : ℚ) * 2 ^ k) - ((p : ℤ) - 1) + j :=
    ⟨(k - (binade emin ((n : ℚ) * 2 ^ k) - ((p : ℤ) - 1))).toNat, by omega⟩
  rw [roundTo]
  generalize binade emin ((n : ℚ) * 2 ^ k) - ((p : ℤ) - 1) = b at hj ⊢
  subst hj
  have e1 : (n : ℚ) * 2 ^ (b + (j : ℤ)) / 2 ^ b = ((n * 2 ^ j : ℤ) : ℚ) := by
    rw [zpow_add₀ h2, zpow_natCast]
    field_simp
    ring
  rw [e1, roundHalfEven_intCast, zpow_add₀ h2, zpow_natCast]
  push_cast
  ring

theorem fl32_dyadic (n k : ℤ) (hn : |n| < 2 ^ 24) (hk : -149 ≤ k) :
    fl32 ((n : ℚ) * 2 ^ k) = (n : ℚ) * 2 ^ k :=
  roundTo_dyadic n k hn (by norm_num; omega)

theorem fl64_dyadic (n k : ℤ) (hn : |n| < 2 ^ 53) (hk : -1074 ≤ k) :
    fl64 ((n : ℚ) * 2 ^ k) = (n : ℚ) * 2 ^ k :=
  roundTo_dyadic n k hn (by norm_num; omega)

theorem fl32_intCast (n : ℤ) (hn : |n| < 2 ^ 24) : fl32 (n : ℚ) = n := by
  have h := fl32_dyadic n 0 hn (by norm_num)
  simpa using h

theorem abs_le_add_abs_sub (a b : ℚ) : |a| ≤ |b| + |a - b| := by
  have h := abs_add b (a - b)
  simpa using h

theorem abs_le_add_abs_sub_real (a b : ℝ) : |a| ≤ |b| + |a - b| := by
  have h := abs_add b (a - b)
  simpa using h

theorem abs_mul_add_le (s a b : ℚ) : |s| * |a + b| ≤ |s * a| + |s * b| := by
  rw [← abs_mul, mul_add]
  exact abs_add _ _

end Rounding

/-! ## Vehicle::update under float arithmetic -/

section FloatUpdate

theorem updateFloat_pathAngle (m : MathFns ℚ) (v : Vehicle ℚ) (d : ℚ) :
    (v.updateFloat m d).pathAngle = fl32 (v.pathAngle + fl32 (v.speed * d)) := rfl

theorem updateFloat_speed (m : MathFns ℚ) (v : Vehicle ℚ) (d : ℚ) :
    (v.updateFloat m d).speed = v.speed := rfl

theorem updateFloat_pathRadius (m : MathFns ℚ) (v : Vehicle ℚ) (d : ℚ) :
    (v.updateFloat m d).pathRadius = v.pathRadius := rfl

theorem frame16ms_eq : frame16ms = 8589935 / 2 ^ 29 := by
  rw [frame16ms, fl32, roundTo_eq_of (e := -6) (n := 8589935)] <;> norm_num [roundHalfEven]

theorem makeVehicleFloat_one_speed (m : MathFns ℚ) :
    (makeVehicleFloat m 1).speed = 13421773 / 2 ^ 24 := by
  have h3 : fl32 0.3 = 10066330 / 2 ^ 25 := by
    rw [fl32, roundTo_eq_of (e := -2) (n := 10066330)] <;> norm_num [roundHalfEven]
  have h1 : fl32 (((1 % 3 : Nat) : ℚ) * (10066330 / 2 ^ 25)) = 10066330 / 2 ^ 25 := by
    have h := fl32_dyadic 10066330 (-25) (by norm_num) (by norm_num)
    norm_num at h ⊢
    exact h
  have h2 : fl32 (0.5 + 10066330 / 2 ^ 25) = 13421773 / 2 ^ 24 := by
    have h := fl32_dyadic 13421773 (-24) (by norm_num) (by norm_num)
    norm_num at h ⊢
    exact h
  simp only [makeVehicleFloat, Vehicle.new, h3, h1, h2]

theorem makeVehicleFloat_one_pathAngle :
    (makeVehicleFloat floatFns 1).pathAngle = 13176795 / 2 ^ 24 := by
  have h1 : fl64 (2 * (884279719003555 / 281474976710656)) = 884279719003555 / 2 ^ 47 := by
    have h := fl64_dyadic 884279719003555 (-47) (by norm_num) (by norm_num)
    norm_num at h ⊢
    exact h
  have h2 : fl64 (884279719003555 / 2 ^ 47 / 8) = 884279719003555 / 2 ^ 50 := by
    have h := fl64_dyadic 884279719003555 (-50) (by norm_num) (by norm_num)
    norm_num at h ⊢
    exact h
  have h3 : fl64 (((1 : Nat) : ℚ) * (884279719003555 / 2 ^ 50)) = 884279719003555 / 2 ^ 50 := by
    have h := fl64_dyadic 884279719003555 (-50) (by norm_num) (by norm_num)
    norm_num at h ⊢
    exact h
  have h4 : fl32 (884279719003555 / 2 ^ 50) = 13176795 / 2 ^ 24 := by
    rw [fl32, roundTo_eq_of (e := -1) (n := 13176795)] <;> norm_num [roundHalfEven]
  simp only [makeVehicleFloat, Vehicle.new, floatFns, h1, h2, h3, h4]

/-- C1, as stated, fails under float arithmetic: for generated vehicle 1
(pathAngle 13176795 / 2^24, the float of M_PI / 4, and speed 13421773 / 2^24,
the float 0.8f) and d1 = d2 = 0.016f, update(d1) then update(d2) leaves
pathAngle = 13606291 / 2^24 = 0.810998142, while update(d1 + d2) leaves
pathAngle = 13606292 / 2^24 = 0.810998201. -/
theorem vehicle_updateFloat_not_additive :
    (makeVehicleFloat floatFns 1).pathAngle = 13176795 / 2 ^ 24 ∧
    (makeVehicleFloat floatFns 1).speed = 13421773 / 2 ^ 24 ∧
    frame16ms = 8589935 / 2 ^ 29 ∧
    (((makeVehicleFloat floatFns 1).updateFloat floatFns frame16ms).updateFloat floatFns
      frame16ms).pathAngle = 13606291 / 2 ^ 24 ∧
    ((makeVehicleFloat floatFns 1).updateFloat floatFns
      (fl32 (frame16ms + frame16ms))).pathAngle = 13606292 / 2 ^ 24 ∧
    (((makeVehicleFloat floatFns 1).updateFloat floatFns frame16ms).updateFloat floatFns
      frame16ms).pathAngle ≠
    ((makeVehicleFloat floatFns 1).updateFloat floatFns
      (fl32 (frame16ms + frame16ms))).pathAngle := by
  have hp1 : fl32 (13421773 / 2 ^ 24 * (8589935 / 2 ^ 29)) = 13743896 / 2 ^ 30 := by
    rw [fl32, roundTo_eq_of (e := -7) (n := 13743896)] <;> norm_num [roundHalfEven]
  have ha1 : fl32 (13176795 / 2 ^ 24 + 13743896 / 2 ^ 30) = 13391543 / 2 ^ 24 := by
    rw [fl32, roundTo_eq_of (e := -1) (n := 13391543)] <;> norm_num [roundHalfEven]
  have ha2 : fl32 (13391543 / 2 ^ 24 + 13743896 / 2 ^ 30) = 13606291 / 2 ^ 24 := by
    rw [fl32, roundTo_eq_of (e := -1) (n := 13606291)] <;> norm_num [roundHalfEven]
  have hd : fl32 (8589935 / 2 ^ 29 + 8589935 / 2 ^ 29) = 8589935 / 2 ^ 28 := by
    have h := fl32_dyadic 8589935 (-28) (by norm_num) (by norm_num)
    norm_num at h ⊢
    exact h
  have hp : fl32 (13421773 / 2 ^ 24 * (8589935 / 2 ^ 28)) = 13743896 / 2 ^ 29 := by
    rw [fl32, roundTo_eq_of (e := -6) (n := 13743896)] <;> norm_num [roundHalfEven]
  have hb : fl32 (13176795 / 2 ^ 24 + 13743896 / 2 ^ 29) = 13606292 / 2 ^ 24 := by
    rw [fl32, roundTo_eq_of (e := -1) (n := 13606292)] <;> norm_num [roundHalfEven]
  have hA : (((makeVehicleFloat floatFns 1).updateFloat floatFns frame16ms).updateFloat
      floatFns frame16ms).pathAngle = 13606291 / 2 ^ 24 := by
    rw [updateFloat_pathAngle, updateFloat_speed, updateFloat_pathAngle,
      makeVehicleFloat_one_speed, makeVehicleFloat_one_pathAngle, frame16ms_eq, hp1, ha1, ha2]
  have hB : ((makeVehicleFloat floatFns 1).updateFloat floatFns
      (fl32 (frame16ms + frame16ms))).pathAngle = 13606292 / 2 ^ 24 := by
    rw [updateFloat_pathAngle, makeVehicleFloat_one_speed, makeVehicleFloat_one_pathAngle,
      frame16ms_eq, hd, hp, hb]
  refine ⟨makeVehicleFloat_one_pathAngle, makeVehicleFloat_one_speed floatFns, frame16ms_eq,
    hA, hB, ?_⟩
  rw [hA, hB]
  norm_num

theorem angle_two_steps_error (θ s d1 d2 : ℚ) :
    |fl32 (fl32 (θ + fl32 (s * d1)) + fl32 (s * d2)) - (θ + s * d1 + s * d2)| ≤
      (|θ| + (|s * d1| + |s * d2|)) * (3 / 2 ^ 24 + 1 / 2 ^ 40) + 1 / 2 ^ 147 ∧
    |fl32 (s * d1)| ≤ |s * d1| * (1 + 1 / 2 ^ 24) + 1 / 2 ^ 150 ∧
    |fl32 (θ + fl32 (s * d1))| ≤ (|θ| + |s * d1|) * (1 + 1 / 2 ^ 22) + 1 / 2 ^ 148 ∧
    |fl32 (fl32 (θ + fl32 (s * d1)) + fl32 (s * d2))| ≤
      (|θ| + (|s * d1| + |s * d2|)) * (1 + 1 / 2 ^ 22) + 1 / 2 ^ 147 := by
  have e1 := fl32_sub_le (s * d1)
  have e2 := fl32_sub_le (θ + fl32 (s * d1))
  have e3 := fl32_sub_le (s * d2)
  have e4 := fl32_sub_le (fl32 (θ + fl32 (s * d1)) + fl32 (s * d2))
  have t1 := abs_le_add_abs_sub (fl32 (s * d1)) (s * d1)
  have t2 := abs_add θ (fl32 (s * d1))
  have t3 := abs_le_add_abs_sub (fl32 (θ + fl32 (s * d1))) (θ + fl32 (s * d1))
  have t4 := abs_le_add_abs_sub (fl32 (s * d2)) (s * d2)
  have t5 := abs_add (fl32 (θ + fl32 (s * d1))) (fl32 (s * d2))
  have t6 := abs_le_add_abs_sub (fl32 (fl32 (θ + fl32 (s * d1)) + fl32 (s * d2)))
    (fl32 (θ + fl32 (s * d1)) + fl32 (s * d2))
  have nX := abs_nonneg (s * d1)
  have nY := abs_nonneg (s * d2)
  have nZ := abs_nonneg θ
  obtain ⟨l1, u1⟩ := abs_le.mp e1
  obtain ⟨l2, u2⟩ := abs_le.mp e2
  obtain ⟨l3, u3⟩ := abs_le.mp e3
  obtain ⟨l4, u4⟩ := abs_le.mp e4
  refine ⟨?_, by linarith, by linarith, by linarith⟩
  rw [abs_le]
  constructor <;> linarith

theorem angle_one_step_error (θ s d1 d2 : ℚ) :
    |fl32 (θ + fl32 (s * fl32 (d1 + d2))) - (θ + s * d1 + s * d2)| ≤
      (|θ| + (|s * d1| + |s * d2|)) * (3 / 2 ^ 24 + 1 / 2 ^ 40) + (1 + |s|) / 2 ^ 148 ∧
    |s * fl32 (d1 + d2)| ≤ (|s * d1| + |s * d2|) * (1 + 1 / 2 ^ 24) + |s| / 2 ^ 150 ∧
    |fl32 (s * fl32 (d1 + d2))| ≤
      (|s * d1| + |s * d2|) * (1 + 1 / 2 ^ 22) + (1 + |s|) / 2 ^ 149 ∧
    |fl32 (θ + fl32 (s * fl32 (d1 + d2)))| ≤
      (|θ| + (|s * d1| + |s * d2|)) * (1 + 1 / 2 ^ 21) + (1 + |s|) / 2 ^ 148 := by
  have e5 := fl32_sub_le (d1 + d2)
  have e6 := fl32_sub_le (s * fl32 (d1 + d2))
  have e7 := fl32_sub_le (θ + fl32 (s * fl32 (d1 + d2)))
  have nS := abs_nonneg s
  have nX := abs_nonneg (s * d1)
  have nY := abs_nonneg (s * d2)
  have nZ := abs_nonneg θ
  have hsum := abs_mul_add_le s d1 d2
  have e5s : |s * fl32 (d1 + d2) - (s * d1 + s * d2)| ≤
      (|s * d1| + |s * d2|) / 2 ^ 24 + |s| / 2 ^ 150 := by
    have h : s * fl32 (d1 + d2) - (s * d1 + s * d2) = s * (fl32 (d1 + d2) - (d1 + d2)) := by ring
    rw [h, abs_mul]
    have h2 := mul_le_mul_of_nonneg_left e5 nS
    have h3 : |s| * (|d1 + d2| / 2 ^ 24 + 1 / 2 ^ 150) =
        |s| * |d1 + d2| / 2 ^ 24 + |s| / 2 ^ 150 := by ring
    rw [h3] at h2
    linarith
  have t0 := abs_le_add_abs_sub (s * fl32 (d1 + d2)) (s * d1 + s * d2)
  have t0s := abs_add (s * d1) (s * d2)
  have t1 := abs_le_add_abs_sub (fl32 (s * fl32 (d1 + d2))) (s * fl32 (d1 + d2))
  have t2 := abs_add θ (fl32 (s * fl32 (d1 + d2)))
  have t3 := abs_le_add_abs_sub (fl32 (θ + fl32 (s * fl32 (d1 + d2))))
    (θ + fl32 (s * fl32 (d1 + d2)))
  obtain ⟨l5, u5⟩ := abs_le.mp e5s
  obtain ⟨l6, u6⟩ := abs_le.mp e6
  obtain ⟨l7, u7⟩ := abs_le.mp e7
  refine ⟨?_, by linarith, by linarith, by linarith⟩
  rw [abs_le]
  constructor <;> linarith

theorem updateFloat_eq_of_pathAngle_eq (m : MathFns ℚ) (v : Vehicle ℚ) (d1 d2 d : ℚ)
    (h : ((v.updateFloat m d1).updateFloat m d2).pathAngle = (v.updateFloat m d).pathAngle) :
    (v.updateFloat m d1).updateFloat m d2 = v.updateFloat m d := by
  simp only [Vehicle.updateFloat] at h ⊢
  rw [h]

/-- C1, amended: under float arithmetic, for every vehicle with
|pathAngle| <= 2^100 and |speed| <= 2^50 and all deltas with |d1|, |d2| <= 2^49,
no operation of the angle computation overflows, and the pathAngle left by
update(d1) then update(d2) differs from the one left by update(d1 + d2) by at
most (|pathAngle| + |speed| * (|d1| + |d2|)) / 2^21 + (1 + |speed|) / 2^146;
when the two angles are equal the two vehicles, positions included, are equal. -/
theorem vehicle_updateFloat_nearly_additive (m : MathFns ℚ) (v : Vehicle ℚ) (d1 d2 : ℚ)
    (hθ : |v.pathAngle| ≤ 2 ^ 100) (hs : |v.speed| ≤ 2 ^ 50)
    (hd1 : |d1| ≤ 2 ^ 49) (hd2 : |d2| ≤ 2 ^ 49) :
    |((v.updateFloat m d1).updateFloat m d2).pathAngle
        - (v.updateFloat m (fl32 (d1 + d2))).pathAngle| ≤
      (|v.pathAngle| + |v.speed| * (|d1| + |d2|)) / 2 ^ 21 + (1 + |v.speed|) / 2 ^ 146 ∧
    (|fl32 (v.speed * d1)| < 2 ^ 128 ∧ |(v.updateFloat m d1).pathAngle| < 2 ^ 128 ∧
      |fl32 (v.speed * d2)| < 2 ^ 128 ∧
      |((v.updateFloat m d1).updateFloat m d2).pathAngle| < 2 ^ 128 ∧
      |fl32 (d1 + d2)| < 2 ^ 128 ∧ |fl32 (v.speed * fl32 (d1 + d2))| < 2 ^ 128 ∧
      |(v.updateFloat m (fl32 (d1 + d2))).pathAngle| < 2 ^ 128) ∧
    (((v.updateFloat m d1).updateFloat m d2).pathAngle
        = (v.updateFloat m (fl32 (d1 + d2))).pathAngle →
      (v.updateFloat m d1).updateFloat m d2 = v.updateFloat m (fl32 (d1 + d2))) := by
  have nS := abs_nonneg v.speed
  have nZ := abs_nonneg v.pathAngle
  have hX : |v.speed * d1| ≤ 2 ^ 99 := by
    rw [abs_mul]
    calc |v.speed| * |d1| ≤ 2 ^ 50 * 2 ^ 49 := mul_le_mul hs hd1 (abs_nonneg _) (by positivity)
      _ = 2 ^ 99 := by norm_num
  have hY : |v.speed * d2| ≤ 2 ^ 99 := by
    rw [abs_mul]
    calc |v.speed| * |d2| ≤ 2 ^ 50 * 2 ^ 49 := mul_le_mul hs hd2 (abs_nonneg _) (by positivity)
      _ = 2 ^ 99 := by norm_num
  have hT : |v.pathAngle| + |v.speed| * (|d1| + |d2|)
      = |v.pathAngle| + (|v.speed * d1| + |v.speed * d2|) := by
    rw [abs_mul, abs_mul]
    ring
  have nX := abs_nonneg (v.speed * d1)
  have nY := abs_nonneg (v.speed * d2)
  obtain ⟨a1, a2, a3, a4⟩ := angle_two_steps_error v.pathAngle v.speed d1 d2
  obtain ⟨b1, b2, b3, b4⟩ := angle_one_step_error v.pathAngle v.speed d1 d2
  have e5 := fl32_sub_le (d1 + d2)
  have t5 := abs_le_add_abs_sub (fl32 (d1 + d2)) (d1 + d2)
  have t5s := abs_add d1 d2
  have hA : ((v.updateFloat m d1).updateFloat m d2).pathAngle =
      fl32 (fl32 (v.pathAngle + fl32 (v.speed * d1)) + fl32 (v.speed * d2)) := rfl
  have hB : (v.updateFloat m (fl32 (d1 + d2))).pathAngle =
      fl32 (v.pathAngle + fl32 (v.speed * fl32 (d1 + d2))) := rfl
  have hA1 : (v.updateFloat m d1).pathAngle = fl32 (v.pathAngle + fl32 (v.speed * d1)) := rfl
  refine ⟨?_, ⟨?_, ?_, ?_, ?_, ?_, ?_, ?_⟩,
    updateFloat_eq_of_pathAngle_eq m v d1 d2 (fl32 (d1 + d2))⟩
  · rw [hA, hB, hT]
    obtain ⟨la, ua⟩ := abs_le.mp a1
    obtain ⟨lb, ub⟩ := abs_le.mp b1
    rw [abs_le]
    constructor <;> linarith
  · linarith
  · rw [hA1]; linarith
  · have := (angle_two_steps_error v.pathAngle v.speed d2 d1).2.1
    linarith
  · rw [hA]; linarith
  · linarith
  · linarith
  · rw [hB]; linarith

/-- Witness of the amended C1: generated vehicle 1 and d1 = d2 = 0.016f are in
the range of the theorem, so the two angles of the counterexample are within the
stated bound of each other. -/
theorem vehicle_updateFloat_nearly_additive_witness :
    |(((makeVehicleFloat floatFns 1).updateFloat floatFns frame16ms).updateFloat floatFns
        frame16ms).pathAngle
      - ((makeVehicleFloat floatFns 1).updateFloat floatFns
        (fl32 (frame16ms + frame16ms))).pathAngle| ≤
      (|(makeVehicleFloat floatFns 1).pathAngle|
        + |(makeVehicleFloat floatFns 1).speed| * (|frame16ms| + |frame16ms|)) / 2 ^ 21
      + (1 + |(makeVehicleFloat floatFns 1).speed|) / 2 ^ 146 :=
  (vehicle_updateFloat_nearly_additive floatFns (makeVehicleFloat floatFns 1) frame16ms
    frame16ms
    (by rw [makeVehicleFloat_one_pathAngle, abs_of_pos] <;> norm_num)
    (by rw [makeVehicleFloat_one_speed, abs_of_pos] <;> norm_num)
    (by rw [frame16ms_eq, abs_of_pos] <;> norm_num)
    (by rw [frame16ms_eq, abs_of_pos] <;> norm_num)).1

end FloatUpdate

/-! ## Vehicles and their circles under float arithmetic -/

section FloatCircle

theorem makeVehicleFloat_pathRadius (m : MathFns ℚ) (i : Nat) (hi : i < 8) :
    (makeVehicleFloat m i).pathRadius = 20 + 5 * (i : ℚ) := by
  have h1 : fl32 ((i : ℚ) * 5) = (i : ℚ) * 5 := by
    have h := fl32_intCast ((i : ℤ) * 5) (by rw [abs_lt]; constructor <;> norm_num <;> omega)
    push_cast at h
    exact h
  have h2 : fl32 (20 + (i : ℚ) * 5) = 20 + (i : ℚ) * 5 := by
    have h := fl32_intCast (20 + (i : ℤ) * 5) (by rw [abs_lt]; constructor <;> norm_num <;> omega)
    push_cast at h
    exact h
  simp only [makeVehicleFloat, Vehicle.new, h1, h2]
  ring

theorem makeVehicleFloat_position (m : MathFns ℚ) (i : Nat) :
    (makeVehicleFloat m i).position.x = (makeVehicleFloat m i).pathRadius ∧
    (makeVehicleFloat m i).position.z = 0 := ⟨rfl, rfl⟩

theorem reachableVehicle_pathRadius (m : MathFns ℚ) (v : Vehicle ℚ)
    (hv : ReachableVehicle m v) : ∃ i : Nat, i < 8 ∧ v.pathRadius = 20 + 5 * (i : ℚ) := by
  induction hv with
  | generated i hi => exact ⟨i, hi, makeVehicleFloat_pathRadius m i hi⟩
  | updated v d _ ih => exact ih

theorem two_pow_dvd_of_sq_add_sq (K : Nat) :
    ∀ A B : ℤ, A ^ 2 + B ^ 2 = 400 * 4 ^ K → (2 : ℤ) ^ K ∣ A := by
  induction K with
  | zero => intro A B _; simp
  | succ K ih =>
    intro A B h
    have hmod : (A ^ 2 + B ^ 2) % 4 = 0 := by
      rw [h, pow_succ]
      omega
    have hA : A % 2 = 0 := by
      rcases Int.even_or_odd A with ha | ha
      · exact Int.even_iff.mp ha
      · have h1 := Int.sq_mod_four_eq_one_of_odd ha
        rcases Int.even_or_odd B with hb | hb
        · obtain ⟨b, rfl⟩ := hb
          have : (b + b) ^ 2 = 4 * b ^ 2 := by ring
          omega
        · have h2 := Int.sq_mod_four_eq_one_of_odd hb
          omega
    have hB : B % 2 = 0 := by
      rcases Int.even_or_odd B with hb | hb
      · exact Int.even_iff.mp hb
      · have h1 := Int.sq_mod_four_eq_one_of_odd hb
        obtain ⟨a, rfl⟩ := Int.even_iff.mpr hA
        have : (a + a) ^ 2 = 4 * a ^ 2 := by ring
        omega
    obtain ⟨a, rfl⟩ := Int.dvd_of_emod_eq_zero hA
    obtain ⟨b, rfl⟩ := Int.dvd_of_emod_eq_zero hB
    have h' : a ^ 2 + b ^ 2 = 400 * 4 ^ K := by
      have h4 : (4 : ℤ) ^ (K + 1) = 4 * 4 ^ K := by ring
      have h5 : (2 * a) ^ 2 + (2 * b) ^ 2 = 4 * (a ^ 2 + b ^ 2) := by ring
      rw [h5, h4] at h
      linarith
    obtain ⟨c, hc⟩ := ih a b h'
    exact ⟨c, by rw [hc, pow_succ]; ring⟩

theorem dyadic_on_circle_is_int (n1 b1 n2 b2 : ℤ)
    (h : ((n1 : ℚ) * 2 ^ b1) ^ 2 + ((n2 : ℚ) * 2 ^ b2) ^ 2 = 400) :
    ∃ N : ℤ, (n1 : ℚ) * 2 ^ b1 = N := by
  have h2 : (2 : ℚ) ≠ 0 := by norm_num
  obtain ⟨K, j1, j2, hj1, hj2⟩ : ∃ K j1 j2 : ℕ, b1 = (j1 : ℤ) - K ∧ b2 = (j2 : ℤ) - K :=
    ⟨(max (-b1) (-b2)).toNat, (b1 + (max (-b1) (-b2)).toNat).toNat,
      (b2 + (max (-b1) (-b2)).toNat).toNat, by omega, by omega⟩
  subst hj1 hj2
  have e1 : (n1 : ℚ) * 2 ^ ((j1 : ℤ) - K) = ((n1 * 2 ^ j1 : ℤ) : ℚ) / 2 ^ K := by
    rw [zpow_sub₀ h2, zpow_natCast, zpow_natCast]
    push_cast
    ring
  have e2 : (n2 : ℚ) * 2 ^ ((j2 : ℤ) - K) = ((n2 * 2 ^ j2 : ℤ) : ℚ) / 2 ^ K := by
    rw [zpow_sub₀ h2, zpow_natCast, zpow_natCast]
    push_cast
    ring
  rw [e1, e2] at h
  rw [e1]
  have hK : (0 : ℚ) < 2 ^ K := by positivity
  have hint : (n1 * 2 ^ j1) ^ 2 + (n2 * 2 ^ j2) ^ 2 = 400 * 4 ^ K := by
    have hq : (((n1 * 2 ^ j1 : ℤ) : ℚ)) ^ 2 + (((n2 * 2 ^ j2 : ℤ) : ℚ)) ^ 2 = 400 * 4 ^ K := by
      have h4 : (4 : ℚ) ^ K = 2 ^ K * 2 ^ K := by
        rw [← mul_pow]
        norm_num
      field_simp at h
      rw [h4]
      push_cast
      rw [h]
      ring
    exact_mod_cast hq
  obtain ⟨N, hN⟩ := two_pow_dvd_of_sq_add_sq K _ _ hint
  refine ⟨N, ?_⟩
  rw [hN]
  push_cast
  field_simp

theorem fl32_is_dyadic (x : ℚ) : ∃ n b : ℤ, fl32 x = (n : ℚ) * 2 ^ b :=
  ⟨_, _, rfl⟩

theorem fl32_half : fl32 (1 / 2) = 1 / 2 := by
  have h := fl32_dyadic 1 (-1) (by norm_num) (by norm_num)
  norm_num at h
  exact h

theorem makeVehicleFloat_zero (m : MathFns ℚ) :
    (makeVehicleFloat m 0).speed = 1 / 2 ∧ (makeVehicleFloat m 0).pathAngle = 0 ∧
    (makeVehicleFloat m 0).pathRadius = 20 := by
  have h0 : fl32 0 = 0 := roundTo_zero 24 (-126)
  have h64 : fl64 0 = 0 := roundTo_zero 53 (-1022)
  have h5 : fl32 (0.5 + 0) = 1 / 2 := by
    have h := fl32_half
    norm_num at h ⊢
    exact h
  refine ⟨?_, ?_, ?_⟩
  · simp only [makeVehicleFloat, Vehicle.new, Nat.zero_mod, Nat.cast_zero, zero_mul, h0, h5]
  · simp only [makeVehicleFloat, Vehicle.new, Nat.cast_zero, zero_mul, h0, h64]
  · have h := makeVehicleFloat_pathRadius m 0 (by norm_num)
    simpa using h

theorem updateFloat_zero_one (m : MathFns ℚ) :
    ((makeVehicleFloat m 0).updateFloat m 1).pathAngle = 1 / 2 ∧
    ((makeVehicleFloat m 0).updateFloat m 1).pathRadius = 20 ∧
    ((makeVehicleFloat m 0).updateFloat m 1).position.x = fl32 (20 * m.cos (1 / 2)) ∧
    ((makeVehicleFloat m 0).updateFloat m 1).position.z = fl32 (20 * m.sin (1 / 2)) := by
  obtain ⟨hs, ha, hr⟩ := makeVehicleFloat_zero m
  have hang : ((makeVehicleFloat m 0).updateFloat m 1).pathAngle = 1 / 2 := by
    rw [updateFloat_pathAngle, hs, ha, mul_one, fl32_half, zero_add, fl32_half]
  refine ⟨hang, by rw [updateFloat_pathRadius, hr], ?_, ?_⟩
  · have h : ((makeVehicleFloat m 0).updateFloat m 1).position.x =
        fl32 ((makeVehicleFloat m 0).pathRadius *
          m.cos ((makeVehicleFloat m 0).updateFloat m 1).pathAngle) := rfl
    rw [h, hr, hang]
  · have h : ((makeVehicleFloat m 0).updateFloat m 1).position.z =
        fl32 ((makeVehicleFloat m 0).pathRadius *
          m.sin ((makeVehicleFloat m 0).updateFloat m 1).pathAngle) := rfl
    rw [h, hr, hang]

/-- C3, as stated, fails under float arithmetic: generated vehicle 0 updated by
1.0f has pathAngle 0.5 and pathRadius 20, and whatever values within 1/100 of
cos 0.5 and sin 0.5 the library returns, the stored floats position.x and
position.z do not satisfy position.x^2 + position.z^2 = pathRadius^2: a pair of
floats on that circle has integer coordinates, and position.x lies strictly
between 17 and 18. -/
theorem vehicle_float_off_circle :
    (∀ m : MathFns ℚ, ((makeVehicleFloat m 0).updateFloat m 1).pathAngle = 1 / 2 ∧
      ((makeVehicleFloat m 0).updateFloat m 1).pathRadius = 20) ∧
    ¬ ∃ m : MathFns ℚ,
      |((m.cos (1 / 2) : ℚ) : ℝ) - Real.cos (1 / 2)| ≤ 1 / 100 ∧
      |((m.sin (1 / 2) : ℚ) : ℝ) - Real.sin (1 / 2)| ≤ 1 / 100 ∧
      ((makeVehicleFloat m 0).updateFloat m 1).position.x ^ 2 +
        ((makeVehicleFloat m 0).updateFloat m 1).position.z ^ 2 =
        ((makeVehicleFloat m 0).updateFloat m 1).pathRadius ^ 2 := by
  refine ⟨fun m => ⟨(updateFloat_zero_one m).1, (updateFloat_zero_one m).2.1⟩, ?_⟩
  rintro ⟨m, hc, _, hcirc⟩
  obtain ⟨_, hr, hx, hz⟩ := updateFloat_zero_one m
  rw [hr, hx, hz] at hcirc
  obtain ⟨n1, b1, e1⟩ := fl32_is_dyadic (20 * m.cos (1 / 2))
  obtain ⟨n2, b2, e2⟩ := fl32_is_dyadic (20 * m.sin (1 / 2))
  have hc400 : ((n1 : ℚ) * 2 ^ b1) ^ 2 + ((n2 : ℚ) * 2 ^ b2) ^ 2 = 400 := by
    rw [← e1, ← e2, hcirc]
    norm_num
  obtain ⟨N, hN⟩ := dyadic_on_circle_is_int n1 b1 n2 b2 hc400
  rw [← e1] at hN
  have hcos := abs_le.mp cos_half_approx
  obtain ⟨hc1, hc2⟩ := abs_le.mp hc
  have hlo : ((867 / 1000 : ℚ) : ℝ) ≤ ((m.cos (1 / 2) : ℚ) : ℝ) := by
    push_cast
    linarith [hcos.1]
  have hhi : ((m.cos (1 / 2) : ℚ) : ℝ) ≤ ((888 / 1000 : ℚ) : ℝ) := by
    push_cast
    linarith [hcos.2]
  have hlo' : (867 / 1000 : ℚ) ≤ m.cos (1 / 2) := by exact_mod_cast hlo
  have hhi' : m.cos (1 / 2) ≤ (888 / 1000 : ℚ) := by exact_mod_cast hhi
  have herr := fl32_sub_le (20 * m.cos (1 / 2))
  have habs : |20 * m.cos (1 / 2)| = 20 * m.cos (1 / 2) := abs_of_nonneg (by linarith)
  rw [habs] at herr
  obtain ⟨l, u⟩ := abs_le.mp herr
  rw [hN] at l u
  have h17 : ((17 : ℤ) : ℚ) < (N : ℚ) := by
    push_cast
    linarith
  have h18 : (N : ℚ) < ((18 : ℤ) : ℚ) := by
    push_cast
    linarith
  have h17' : (17 : ℤ) < N := by exact_mod_cast h17
  have h18' : N < (18 : ℤ) := by exact_mod_cast h18
  omega

theorem coordinate_error (r c : ℚ) (C δ : ℝ) (hr : 20 ≤ r) (hC : |C| ≤ 1)
    (hδ : δ ≤ 1 / 16) (hc : |(c : ℝ) - C| ≤ δ) :
    |((fl32 (r * c) : ℚ) : ℝ) - (r : ℝ) * C| ≤ (r : ℝ) * (δ + 1 / 2 ^ 23) := by
  have hR : (20 : ℝ) ≤ (r : ℝ) := by exact_mod_cast hr
  have herrQ := fl32_sub_le (r * c)
  have herr : |((fl32 (r * c) : ℚ) : ℝ) - (r : ℝ) * (c : ℝ)| ≤
      |(r : ℝ) * (c : ℝ)| / 2 ^ 24 + 1 / 2 ^ 150 := by
    have h := (Rat.cast_le (K := ℝ)).mpr herrQ
    push_cast at h
    exact h
  have hδ0 : 0 ≤ δ := le_trans (abs_nonneg _) hc
  have hcabs : |(c : ℝ)| ≤ 1 + δ := by
    have h := abs_le_add_abs_sub_real (c : ℝ) C
    linarith
  have hrc : |(r : ℝ) * (c : ℝ)| ≤ (r : ℝ) + (r : ℝ) * δ := by
    rw [abs_mul, abs_of_nonneg (by linarith : (0 : ℝ) ≤ (r : ℝ))]
    have h := mul_le_mul_of_nonneg_left hcabs (by linarith : (0 : ℝ) ≤ (r : ℝ))
    linarith
  have hrδ : (r : ℝ) * δ ≤ (r : ℝ) / 16 := by
    have h := mul_le_mul_of_nonneg_left hδ (by linarith : (0 : ℝ) ≤ (r : ℝ))
    linarith
  have hrδ0 : 0 ≤ (r : ℝ) * δ := mul_nonneg (by linarith) hδ0
  have hdiff : |(r : ℝ) * (c : ℝ) - (r : ℝ) * C| ≤ (r : ℝ) * δ := by
    rw [← mul_sub, abs_mul, abs_of_nonneg (by linarith : (0 : ℝ) ≤ (r : ℝ))]
    exact mul_le_mul_of_nonneg_left hc (by linarith)
  have htri : |((fl32 (r * c) : ℚ) : ℝ) - (r : ℝ) * C| ≤
      |((fl32 (r * c) : ℚ) : ℝ) - (r : ℝ) * (c : ℝ)| + |(r : ℝ) * (c : ℝ) - (r : ℝ) * C| := by
    have h := abs_add (((fl32 (r * c) : ℚ) : ℝ) - (r : ℝ) * (c : ℝ))
      ((r : ℝ) * (c : ℝ) - (r : ℝ) * C)
    simpa using h
  have hsmall : (1 : ℝ) / 2 ^ 150 ≤ (r : ℝ) / 2 ^ 30 := by
    have h1 : (1 : ℝ) / 2 ^ 150 ≤ 20 / 2 ^ 30 := by norm_num
    have h2 : (20 : ℝ) / 2 ^ 30 ≤ (r : ℝ) / 2 ^ 30 := by
      apply div_le_div_of_nonneg_right hR (by positivity)
    linarith
  have hfin : (r : ℝ) * (δ + 1 / 2 ^ 23) = (r : ℝ) * δ + (r : ℝ) / 2 ^ 23 := by ring
  rw [hfin]
  linarith

theorem near_circle (R X Z C S δ : ℝ) (hR : 0 ≤ R) (hCS : C ^ 2 + S ^ 2 = 1)
    (hC : |C| ≤ 1) (hS : |S| ≤ 1) (hδ0 : 0 ≤ δ) (hδ : δ ≤ 1 / 16)
    (hX : |X - R * C| ≤ R * (δ + 1 / 2 ^ 23)) (hZ : |Z - R * S| ≤ R * (δ + 1 / 2 ^ 23)) :
    |X ^ 2 + Z ^ 2 - R ^ 2| ≤ R ^ 2 * (5 * δ + 1 / 2 ^ 20) := by
  have hk0 : 0 ≤ δ + 1 / 2 ^ 23 := by positivity
  have hk1 : δ + 1 / 2 ^ 23 ≤ 1 / 8 := by norm_num; linarith
  have hk2 : (δ + 1 / 2 ^ 23) ^ 2 ≤ (δ + 1 / 2 ^ 23) / 8 := by nlinarith
  have hk : 4 * (δ + 1 / 2 ^ 23) + 2 * (δ + 1 / 2 ^ 23) ^ 2 ≤ 5 * δ + 1 / 2 ^ 20 := by
    norm_num at hk2 ⊢
    linarith
  have hb0 : 0 ≤ R * (δ + 1 / 2 ^ 23) := mul_nonneg hR hk0
  obtain ⟨lx, ux⟩ := abs_le.mp hX
  obtain ⟨lz, uz⟩ := abs_le.mp hZ
  have hex2 : (X - R * C) ^ 2 ≤ (R * (δ + 1 / 2 ^ 23)) ^ 2 := sq_le_sq' lx ux
  have hez2 : (Z - R * S) ^ 2 ≤ (R * (δ + 1 / 2 ^ 23)) ^ 2 := sq_le_sq' lz uz
  have hCx : |R * (C * (X - R * C))| ≤ R * (R * (δ + 1 / 2 ^ 23)) := by
    rw [abs_mul, abs_of_nonneg hR, abs_mul]
    apply mul_le_mul_of_nonneg_left _ hR
    calc |C| * |X - R * C| ≤ 1 * (R * (δ + 1 / 2 ^ 23)) :=
          mul_le_mul hC hX (abs_nonneg _) zero_le_one
      _ = R * (δ + 1 / 2 ^ 23) := one_mul _
  have hSz : |R * (S * (Z - R * S))| ≤ R * (R * (δ + 1 / 2 ^ 23)) := by
    rw [abs_mul, abs_of_nonneg hR, abs_mul]
    apply mul_le_mul_of_nonneg_left _ hR
    calc |S| * |Z - R * S| ≤ 1 * (R * (δ + 1 / 2 ^ 23)) :=
          mul_le_mul hS hZ (abs_nonneg _) zero_le_one
      _ = R * (δ + 1 / 2 ^ 23) := one_mul _
  have hid : X ^ 2 + Z ^ 2 - R ^ 2 =
      2 * (R * (C * (X - R * C))) + 2 * (R * (S * (Z - R * S)))
        + (X - R * C) ^ 2 + (Z - R * S) ^ 2 := by
    have h : X ^ 2 + Z ^ 2 - R ^ 2 =
        2 * (R * (C * (X - R * C))) + 2 * (R * (S * (Z - R * S)))
          + (X - R * C) ^ 2 + (Z - R * S) ^ 2 + R ^ 2 * (C ^ 2 + S ^ 2 - 1) := by ring
    rw [h, hCS]
    ring
  have hfin : R ^ 2 * (4 * (δ + 1 / 2 ^ 23) + 2 * (δ + 1 / 2 ^ 23) ^ 2) ≤
      R ^ 2 * (5 * δ + 1 / 2 ^ 20) := mul_le_mul_of_nonneg_left hk (sq_nonneg R)
  have hexp : R ^ 2 * (4 * (δ + 1 / 2 ^ 23) + 2 * (δ + 1 / 2 ^ 23) ^ 2) =
      4 * (R * (R * (δ + 1 / 2 ^ 23))) + 2 * (R * (δ + 1 / 2 ^ 23)) ^ 2 := by ring
  rw [hexp] at hfin
  obtain ⟨l1, u1⟩ := abs_le.mp hCx
  obtain ⟨l2, u2⟩ := abs_le.mp hSz
  have n1 := sq_nonneg (X - R * C)
  have n2 := sq_nonneg (Z - R * S)
  rw [hid, abs_le]
  constructor <;> linarith

/-- C3, amended: under float arithmetic, every reachable vehicle (generated, or
after any number of updates with any deltas) has pathRadius = 20 + 5 i for some
i below 8, which no update changes; a generated vehicle satisfies
position.x^2 + position.z^2 = pathRadius^2 exactly; and in every reachable
state, when the library returns cos and sin of the stored pathAngle within
delta <= 1/16 of the real cosine and sine, position.x^2 + position.z^2 differs
from pathRadius^2 by at most pathRadius^2 * (5 delta + 2^-20). -/
theorem reachable_float_vehicle_near_circle (m : MathFns ℚ) (v : Vehicle ℚ)
    (hv : ReachableVehicle m v) :
    (∃ i : Nat, i < 8 ∧ v.pathRadius = 20 + 5 * (i : ℚ)) ∧
    (∀ d : ℚ, (v.updateFloat m d).pathRadius = v.pathRadius) ∧
    (∀ i : Nat, (makeVehicleFloat m i).position.x ^ 2 + (makeVehicleFloat m i).position.z ^ 2
      = (makeVehicleFloat m i).pathRadius ^ 2) ∧
    (∀ δ : ℝ, δ ≤ 1 / 16 →
      |((m.cos v.pathAngle : ℚ) : ℝ) - Real.cos ((v.pathAngle : ℚ) : ℝ)| ≤ δ →
      |((m.sin v.pathAngle : ℚ) : ℝ) - Real.sin ((v.pathAngle : ℚ) : ℝ)| ≤ δ →
      |((v.position.x : ℚ) : ℝ) ^ 2 + ((v.position.z : ℚ) : ℝ) ^ 2
          - ((v.pathRadius : ℚ) : ℝ) ^ 2| ≤
        ((v.pathRadius : ℚ) : ℝ) ^ 2 * (5 * δ + 1 / 2 ^ 20)) := by
  have hgen : ∀ i : Nat, (makeVehicleFloat m i).position.x ^ 2
      + (makeVehicleFloat m i).position.z ^ 2 = (makeVehicleFloat m i).pathRadius ^ 2 := by
    intro i
    rw [(makeVehicleFloat_position m i).1, (makeVehicleFloat_position m i).2]
    ring
  refine ⟨reachableVehicle_pathRadius m v hv, fun d => rfl, hgen, ?_⟩
  intro δ hδ hc hs
  have hδ0 : 0 ≤ δ := le_trans (abs_nonneg _) hc
  cases hv with
  | generated i hi =>
    have h := hgen i
    have hR : ((((makeVehicleFloat m i).position.x : ℚ) : ℝ)) ^ 2
        + (((makeVehicleFloat m i).position.z : ℚ) : ℝ) ^ 2
        = (((makeVehicleFloat m i).pathRadius : ℚ) : ℝ) ^ 2 := by exact_mod_cast h
    rw [hR, sub_self, abs_zero]
    positivity
  | updated w d hw =>
    obtain ⟨i, hi, hr⟩ := reachableVehicle_pathRadius m w hw
    have hr20 : (20 : ℚ) ≤ w.pathRadius := by
      rw [hr]
      have : (0 : ℚ) ≤ (i : ℚ) := Nat.cast_nonneg i
      linarith
    have hR0 : (0 : ℝ) ≤ ((w.pathRadius : ℚ) : ℝ) := by
      have : ((20 : ℚ) : ℝ) ≤ ((w.pathRadius : ℚ) : ℝ) := by exact_mod_cast hr20
      norm_num at this
      linarith
    exact near_circle _ _ _ _ _ δ hR0 (Real.cos_sq_add_sin_sq _) (Real.abs_cos_le_one _)
      (Real.abs_sin_le_one _) hδ0 hδ
      (coordinate_error w.pathRadius _ _ δ hr20 (Real.abs_cos_le_one _) hδ hc)
      (coordinate_error w.pathRadius _ _ δ hr20 (Real.abs_sin_le_one _) hδ hs)

theorem fl32_near (q lo hi : ℚ) (h0 : 0 ≤ lo) (h1 : lo ≤ q) (h2 : q ≤ hi) (h3 : hi ≤ 1) :
    lo - 1 / 2 ^ 23 ≤ fl32 q ∧ fl32 q ≤ hi + 1 / 2 ^ 23 := by
  have herr := fl32_sub_le q
  rw [abs_of_nonneg (by linarith : 0 ≤ q)] at herr
  obtain ⟨l, u⟩ := abs_le.mp herr
  have hsmall : (1 : ℚ) / 2 ^ 150 ≤ 1 / 2 ^ 24 := by norm_num
  have hq : q / 2 ^ 24 ≤ 1 / 2 ^ 24 := by
    apply div_le_div_of_nonneg_right (by linarith) (by positivity)
  have e : (1 : ℚ) / 2 ^ 23 = 1 / 2 ^ 24 + 1 / 2 ^ 24 := by norm_num
  constructor <;> linarith

theorem floatFns_half_accuracy :
    |((floatFns.cos (1 / 2) : ℚ) : ℝ) - Real.cos (((1 / 2 : ℚ) : ℚ) : ℝ)| ≤ 1 / 1000 ∧
    |((floatFns.sin (1 / 2) : ℚ) : ℝ) - Real.sin (((1 / 2 : ℚ) : ℚ) : ℝ)| ≤ 1 / 1000 := by
  have hc := fl32_near
    (1 - (1 / 2) ^ 2 / 2 + (1 / 2) ^ 4 / 24 - (1 / 2) ^ 6 / 720 + (1 / 2) ^ 8 / 40320
      - (1 / 2) ^ 10 / 3628800)
    (8775 / 10000) (8776 / 10000) (by norm_num) (by norm_num) (by norm_num) (by norm_num)
  have hs := fl32_near
    (1 / 2 - (1 / 2) ^ 3 / 6 + (1 / 2) ^ 5 / 120 - (1 / 2) ^ 7 / 5040 + (1 / 2) ^ 9 / 362880
      - (1 / 2) ^ 11 / 39916800)
    (4794 / 10000) (4795 / 10000) (by norm_num) (by norm_num) (by norm_num) (by norm_num)
  have hcR1 := (Rat.cast_le (K := ℝ)).mpr hc.1
  have hcR2 := (Rat.cast_le (K := ℝ)).mpr hc.2
  have hsR1 := (Rat.cast_le (K := ℝ)).mpr hs.1
  have hsR2 := (Rat.cast_le (K := ℝ)).mpr hs.2
  have hcos := abs_le.mp cos_half_approx
  have hsin := abs_le.mp sin_half_approx
  have hcast : (((1 / 2 : ℚ) : ℚ) : ℝ) = 1 / 2 := by norm_num
  rw [hcast]
  simp only [floatFns]
  push_cast at hcR1 hcR2 hsR1 hsR2
  constructor
  · rw [abs_le]
    constructor <;> linarith [hcos.1, hcos.2]
  · rw [abs_le]
    constructor <;> linarith [hsin.1, hsin.2]

/-- Witness of the amended C3: generated vehicle 0 updated by 1.0f is reachable,
the series of floatFns are within 1/1000 of cos 0.5 and sin 0.5, and its stored
position is within 400 * (5/1000 + 2^-20) of the circle of radius 20. -/
theorem reachable_float_vehicle_near_circle_witness :
    ReachableVehicle floatFns ((makeVehicleFloat floatFns 0).updateFloat floatFns 1) ∧
    |((((makeVehicleFloat floatFns 0).updateFloat floatFns 1).position.x : ℚ) : ℝ) ^ 2
        + ((((makeVehicleFloat floatFns 0).updateFloat floatFns 1).position.z : ℚ) : ℝ) ^ 2
        - ((((makeVehicleFloat floatFns 0).updateFloat floatFns 1).pathRadius : ℚ) : ℝ) ^ 2| ≤
      ((((makeVehicleFloat floatFns 0).updateFloat floatFns 1).pathRadius : ℚ) : ℝ) ^ 2
        * (5 * (1 / 1000) + 1 / 2 ^ 20) :=
  ⟨ReachableVehicle.updated _ _ (ReachableVehicle.generated 0 (by norm_num)),
    (reachable_float_vehicle_near_circle floatFns _
      (ReachableVehicle.updated _ _ (ReachableVehicle.generated 0 (by norm_num)))).2.2.2
      (1 / 1000) (by norm_num)
      (by rw [(updateFloat_zero_one floatFns).1]; exact floatFns_half_accuracy.1)
      (by rw [(updateFloat_zero_one floatFns).1]; exact floatFns_half_accuracy.2)⟩

end FloatCircle

end NightCity
